import Mathlib

set_option linter.unusedVariables false

/-!
Verification of the `EntityIssueHandler` sync handler
(`sg_jira/handlers/entity_issue_handler.py`).

The Python code manipulates dynamically typed dict/list payloads coming from
Jira webhooks and Shotgun events.  We shallow-embed those values as `PyVal`,
Python exceptions as `PyErr` (functions that may raise return
`Except PyErr _`), and the two external clients (the Jira session and the
Shotgun connection) plus the handler configuration as a `Bridge` record of
oracle functions.  Remote mutating calls (issue creation, status transition,
watcher changes, schema updates, entity updates) are recorded in an explicit
`Call` log so that theorems can state that a given remote write did or did not
happen.

Logging statements of the source are dropped, except where evaluating the
log-message format expression itself can raise (the Python `%` operator with
a mismatched argument count), which we model faithfully where it occurs.
-/

namespace SgJira

/-- Python runtime values as they appear in the handler: `None`, booleans,
integers, strings, lists, string-keyed dicts (kept as association lists in
insertion order), and `jira.resources.Resource` objects carrying a `raw`
payload. -/
inductive PyVal where
  | none : PyVal
  | bool (b : Bool) : PyVal
  | int (n : Int) : PyVal
  | str (s : String) : PyVal
  | list (xs : List PyVal) : PyVal
  | dict (entries : List (String × PyVal)) : PyVal
  | resource (raw : PyVal) : PyVal

instance : Inhabited PyVal := ⟨PyVal.none⟩

mutual

/-- Decidable equality for `PyVal` (the derive handler does not support the
nested occurrences of `List`). -/
def PyVal.decEq : (a b : PyVal) → Decidable (a = b)
  | .none, .none => isTrue rfl
  | .none, .bool _ => isFalse (fun h => nomatch h)
  | .none, .int _ => isFalse (fun h => nomatch h)
  | .none, .str _ => isFalse (fun h => nomatch h)
  | .none, .list _ => isFalse (fun h => nomatch h)
  | .none, .dict _ => isFalse (fun h => nomatch h)
  | .none, .resource _ => isFalse (fun h => nomatch h)
  | .bool _, .none => isFalse (fun h => nomatch h)
  | .bool x, .bool y =>
    match Bool.decEq x y with
    | isTrue h => isTrue (h ▸ rfl)
    | isFalse h => isFalse (fun hh => h (PyVal.bool.inj hh))
  | .bool _, .int _ => isFalse (fun h => nomatch h)
  | .bool _, .str _ => isFalse (fun h => nomatch h)
  | .bool _, .list _ => isFalse (fun h => nomatch h)
  | .bool _, .dict _ => isFalse (fun h => nomatch h)
  | .bool _, .resource _ => isFalse (fun h => nomatch h)
  | .int _, .none => isFalse (fun h => nomatch h)
  | .int _, .bool _ => isFalse (fun h => nomatch h)
  | .int x, .int y =>
    match Int.decEq x y with
    | isTrue h => isTrue (h ▸ rfl)
    | isFalse h => isFalse (fun hh => h (PyVal.int.inj hh))
  | .int _, .str _ => isFalse (fun h => nomatch h)
  | .int _, .list _ => isFalse (fun h => nomatch h)
  | .int _, .dict _ => isFalse (fun h => nomatch h)
  | .int _, .resource _ => isFalse (fun h => nomatch h)
  | .str _, .none => isFalse (fun h => nomatch h)
  | .str _, .bool _ => isFalse (fun h => nomatch h)
  | .str _, .int _ => isFalse (fun h => nomatch h)
  | .str x, .str y =>
    match String.decEq x y with
    | isTrue h => isTrue (h ▸ rfl)
    | isFalse h => isFalse (fun hh => h (PyVal.str.inj hh))
  | .str _, .list _ => isFalse (fun h => nomatch h)
  | .str _, .dict _ => isFalse (fun h => nomatch h)
  | .str _, .resource _ => isFalse (fun h => nomatch h)
  | .list _, .none => isFalse (fun h => nomatch h)
  | .list _, .bool _ => isFalse (fun h => nomatch h)
  | .list _, .int _ => isFalse (fun h => nomatch h)
  | .list _, .str _ => isFalse (fun h => nomatch h)
  | .list xs, .list ys =>
    match PyVal.decEqList xs ys with
    | isTrue h => isTrue (h ▸ rfl)
    | isFalse h => isFalse (fun hh => h (PyVal.list.inj hh))
  | .list _, .dict _ => isFalse (fun h => nomatch h)
  | .list _, .resource _ => isFalse (fun h => nomatch h)
  | .dict _, .none => isFalse (fun h => nomatch h)
  | .dict _, .bool _ => isFalse (fun h => nomatch h)
  | .dict _, .int _ => isFalse (fun h => nomatch h)
  | .dict _, .str _ => isFalse (fun h => nomatch h)
  | .dict _, .list _ => isFalse (fun h => nomatch h)
  | .dict xs, .dict ys =>
    match PyVal.decEqDict xs ys with
    | isTrue h => isTrue (h ▸ rfl)
    | isFalse h => isFalse (fun hh => h (PyVal.dict.inj hh))
  | .dict _, .resource _ => isFalse (fun h => nomatch h)
  | .resource _, .none => isFalse (fun h => nomatch h)
  | .resource _, .bool _ => isFalse (fun h => nomatch h)
  | .resource _, .int _ => isFalse (fun h => nomatch h)
  | .resource _, .str _ => isFalse (fun h => nomatch h)
  | .resource _, .list _ => isFalse (fun h => nomatch h)
  | .resource _, .dict _ => isFalse (fun h => nomatch h)
  | .resource x, .resource y =>
    match PyVal.decEq x y with
    | isTrue h => isTrue (h ▸ rfl)
    | isFalse h => isFalse (fun hh => h (PyVal.resource.inj hh))

/-- Decidable equality for lists of `PyVal`. -/
def PyVal.decEqList : (xs ys : List PyVal) → Decidable (xs = ys)
  | [], [] => isTrue rfl
  | [], _ :: _ => isFalse (fun h => nomatch h)
  | _ :: _, [] => isFalse (fun h => nomatch h)
  | x :: xs, y :: ys =>
    match PyVal.decEq x y with
    | isFalse h1 => isFalse (fun hh => h1 (List.head_eq_of_cons_eq hh))
    | isTrue h1 =>
      match PyVal.decEqList xs ys with
      | isTrue h2 => isTrue (by rw [h1, h2])
      | isFalse h2 => isFalse (fun hh => h2 (List.tail_eq_of_cons_eq hh))

/-- Decidable equality for dict entry lists of `PyVal`. -/
def PyVal.decEqDict : (xs ys : List (String × PyVal)) → Decidable (xs = ys)
  | [], [] => isTrue rfl
  | [], _ :: _ => isFalse (fun h => nomatch h)
  | _ :: _, [] => isFalse (fun h => nomatch h)
  | (k, x) :: xs, (l, y) :: ys =>
    match String.decEq k l with
    | isFalse h0 =>
      isFalse (fun hh => h0 (congrArg Prod.fst (List.head_eq_of_cons_eq hh)))
    | isTrue h0 =>
      match PyVal.decEq x y with
      | isFalse h1 =>
        isFalse (fun hh => h1 (congrArg Prod.snd (List.head_eq_of_cons_eq hh)))
      | isTrue h1 =>
        match PyVal.decEqDict xs ys with
        | isTrue h2 => isTrue (by rw [h0, h1, h2])
        | isFalse h2 => isFalse (fun hh => h2 (List.tail_eq_of_cons_eq hh))

end

instance : DecidableEq PyVal := PyVal.decEq

/-- Python exceptions raised (or explicitly constructed) by the handler code. -/
inductive PyErr where
  | keyError (k : String) : PyErr
  | attributeError (msg : String) : PyErr
  | typeError (msg : String) : PyErr
  | indexError (msg : String) : PyErr
  | valueError (msg : String) : PyErr
  | runtimeError (msg : String) : PyErr
  | invalidShotgunValue (field : String) (value : PyVal) (msg : String) : PyErr
  | invalidJiraValue (field : String) (value : PyVal) (msg : String) : PyErr
  deriving DecidableEq

/-- Python truthiness for the embedded values. -/
def PyVal.truthy : PyVal → Bool
  | .none => false
  | .bool b => b
  | .int n => n != 0
  | .str s => s ≠ ""
  | .list xs => !xs.isEmpty
  | .dict es => !es.isEmpty
  | .resource _ => true

/-- Whether the value is a Python dict. -/
def PyVal.isDict : PyVal → Bool
  | .dict _ => true
  | _ => false

/-- Python `d.get(k)`: `None` when the key is absent; raises `AttributeError`
when the receiver is not a dict. -/
def PyVal.dictGet : PyVal → String → Except PyErr PyVal
  | .dict es, k => .ok ((es.lookup k).getD .none)
  | _, _ => .error (.attributeError "get")

/-- Python `d[k]` for string keys: `KeyError` when absent, `TypeError` when the
receiver is not a dict. -/
def PyVal.getItem : PyVal → String → Except PyErr PyVal
  | .dict es, k =>
    match es.lookup k with
    | some v => .ok v
    | Option.none => .error (.keyError k)
  | _, _ => .error (.typeError "object is not subscriptable")

/-- Python `xs[i]` for lists: `IndexError` when out of range, `TypeError`
otherwise. -/
def PyVal.index : PyVal → Nat → Except PyErr PyVal
  | .list xs, i =>
    match xs.get? i with
    | some v => .ok v
    | Option.none => .error (.indexError "list index out of range")
  | _, _ => .error (.typeError "object is not subscriptable")

/-- Python `k in d` for dicts (membership among the keys). -/
def PyVal.hasKey : PyVal → String → Bool
  | .dict es, k => (es.lookup k).isSome
  | _, _ => false

/-- Python `str.lower` (ASCII case folding, which covers every comparison the
handler makes); spelled out on the character list so that it evaluates by
`decide`. -/
def strLower (s : String) : String := ⟨s.data.map Char.toLower⟩

/-- Python `s.lower()`: only defined on strings, `AttributeError` otherwise. -/
def pyLower : PyVal → Except PyErr String
  | .str s => .ok (strLower s)
  | _ => .error (.attributeError "lower")

/-- Convenience total lookup used to state theorems about dict-shaped events:
value of a key in a dict, `None` when absent or when the value is not a dict. -/
def subDict (d : PyVal) (k : String) : PyVal :=
  match d with
  | .dict es => (es.lookup k).getD .none
  | _ => .none

/-- A `jira.resources.User` (only the attributes the handler reads). -/
structure JiraUser where
  name : String
  emailAddress : String
  deriving DecidableEq, Inhabited

/-- A `jira.resources.Project` (only the attributes the handler reads). -/
structure JiraProject where
  raw : PyVal
  deriving DecidableEq, Inhabited

/-- A `jira.resources.IssueType` (only the attributes the handler reads). -/
structure JiraIssueType where
  id : String
  raw : PyVal
  deriving DecidableEq, Inhabited

/-- A `jira.resources.Issue` resource: its key and its `fields` attribute
object, whose attributes are looked up by Jira field id. -/
structure JiraIssue where
  key : String
  fields : List (String × PyVal)
  deriving DecidableEq, Inhabited

/-- Python `getattr(jira_issue.fields, jira_field)`. -/
def JiraIssue.fieldAttr (i : JiraIssue) (f : String) : Except PyErr PyVal :=
  match i.fields.lookup f with
  | some v => .ok v
  | Option.none => .error (.attributeError f)

/-- Remote mutating calls issued by the handler, recorded for theorems about
side effects. -/
inductive Call where
  | createIssue (fields : PyVal) : Call
  | setIssueStatus (issueKey : String) (status : String) (comment : String) : Call
  | addWatcher (issueKey : String) (userName : String) : Call
  | removeWatcher (issueKey : String) (userName : String) : Call
  | schemaFieldUpdate (entityType : String) (field : String) (properties : PyVal) : Call
  | clearCachedFieldSchema (entityType : String) : Call
  | sgUpdate (entityType : PyVal) (id : PyVal) (data : List (String × PyVal)) : Call
  deriving DecidableEq

/-- The handler configuration together with the narrow interfaces of its two
collaborators (the Jira session and the Shotgun connection), modelled as
oracle functions.  Remote lookups are pure oracles; remote writes are logged
through `Call` by the embedded functions themselves. -/
structure Bridge where
  /-- `self._issue_type`, the target Issue type name, e.g. `"Task"`. -/
  issue_type : String
  /-- `self.sg_jira_statuses_mapping`, Shotgun status short code to Jira
  status name (supplied by the deriving class). -/
  sg_jira_statuses_mapping : List (String × String)
  /-- `self.jira.jira_shotgun_id_field`. -/
  jira_shotgun_id_field : String
  /-- `self.jira.jira_shotgun_type_field`. -/
  jira_shotgun_type_field : String
  /-- `self.jira.jira_shotgun_url_field`. -/
  jira_shotgun_url_field : String
  /-- `self.get_jira_issue_field_for_shotgun_field` (deriving class). -/
  get_jira_issue_field_for_shotgun_field : String → String → Option String
  /-- `self.get_shotgun_entity_field_for_issue_field` (deriving class). -/
  get_shotgun_entity_field_for_issue_field : String → Option String
  /-- `self.supported_shotgun_fields_for_jira_event` (deriving class). -/
  supported_shotgun_fields_for_jira_event : List String
  /-- `self.jira.issue_type_by_name`. -/
  issue_type_by_name : String → JiraIssueType
  /-- `self.jira.createmeta project issuetypeIds` (raw metadata payload). -/
  createmeta : JiraProject → String → PyVal
  /-- `self.jira.current_user()`. -/
  current_user : String
  /-- `self.jira.find_jira_user email` (project/issue scoping hints absorbed
  by the oracle). -/
  find_jira_user : PyVal → Option JiraUser
  /-- `self.jira.find_jira_assignee_for_issue email project issue`. -/
  find_jira_assignee_for_issue : PyVal → PyVal → JiraIssue → PyVal
  /-- `self.jira.get_jira_issue_field_id name`. -/
  get_jira_issue_field_id : String → PyVal
  /-- `self.jira.editmeta issue` (raw metadata payload). -/
  editmeta : JiraIssue → PyVal
  /-- `self.jira.sanitize_jira_update_value value schema`; a `UserWarning`
  is modelled as the `.error` case. -/
  sanitize_jira_update_value : PyVal → PyVal → Except String PyVal
  /-- `self.jira.set_jira_issue_status issue name comment` result. -/
  set_jira_issue_status : JiraIssue → String → String → Bool
  /-- `self.jira.user key`. -/
  jira_user_by_key : String → JiraUser
  /-- `self.jira.create_issue fields` result. -/
  create_issue : PyVal → PyVal
  /-- `self.shotgun.get_field_schema entityType field`. -/
  get_field_schema : String → String → PyVal
  /-- `self.shotgun.consolidate_entity entity fields` (`fields=None` passed
  as `[]`). -/
  consolidate_entity : PyVal → List String → PyVal
  /-- `self.shotgun.get_entity_page_url entity`. -/
  get_entity_page_url : PyVal → String
  /-- `self.shotgun.find_one "HumanUser" [["email", "is", email]] ...`. -/
  find_one_humanuser_by_email : PyVal → PyVal
  /-- `self.shotgun.match_entity_by_name name entityTypes project`. -/
  match_entity_by_name : String → PyVal → PyVal → PyVal

/-- Embedding of `EntityIssueHandler.accept_jira_event` (lines 40-96).
Returns `Except.ok` with the boolean result, or `Except.error` when the
Python code would raise. -/
def accept_jira_event (b : Bridge) (resource_type : String)
    (resource_id : String) (event : PyVal) : Except PyErr Bool :=
  if strLower resource_type ≠ "issue" then .ok false
  else
    match event.dictGet "issue" with
    | .error e => .error e
    | .ok jira_issue =>
      if !jira_issue.truthy then .ok false
      else
        match event.dictGet "webhookEvent" with
        | .error e => .error e
        | .ok webhook_event =>
          if !webhook_event.truthy ||
              !(webhook_event == PyVal.str "jira:issue_updated" ||
                webhook_event == PyVal.str "jira:issue_created") then
            .ok false
          else
            match event.dictGet "changelog" with
            | .error e => .error e
            | .ok changelog =>
              if !changelog.truthy then .ok false
              else
                match jira_issue.dictGet "fields" with
                | .error e => .error e
                | .ok fields =>
                  if !fields.truthy then .ok false
                  else
                    match fields.dictGet "issuetype" with
                    | .error e => .error e
                    | .ok issue_type =>
                      if !issue_type.truthy then .ok false
                      else
                        match issue_type.getItem "name" with
                        | .error e => .error e
                        | .ok tname =>
                          if !(tname == PyVal.str b.issue_type) then .ok false
                          else
                            match fields.dictGet b.jira_shotgun_id_field,
                                  fields.dictGet b.jira_shotgun_type_field with
                            | .error e, _ => .error e
                            | .ok _, .error e => .error e
                            | .ok shotgun_id, .ok shotgun_type =>
                              if !shotgun_id.truthy || !shotgun_type.truthy then .ok false
                              else .ok true

/-- Shape condition under which `accept_jira_event` cannot raise: the event is
a dict; its `issue` value, when truthy, is a dict; that dict's `fields` value,
when truthy, is a dict; and that dict's `issuetype` value, when truthy, is a
dict carrying a `name` key. -/
def acceptEventWellFormed (event : PyVal) : Bool :=
  event.isDict &&
  (let issue := subDict event "issue"
   !issue.truthy ||
     (issue.isDict &&
       (let fields := subDict issue "fields"
        !fields.truthy ||
          (fields.isDict &&
            (let itype := subDict fields "issuetype"
             !itype.truthy || (itype.isDict && itype.hasKey "name"))))))

/-- Decidable equality of `Except` results, for evaluating the embedded
functions on concrete inputs. -/
instance {ε α : Type} [DecidableEq ε] [DecidableEq α] : DecidableEq (Except ε α) := fun a b =>
  match a, b with
  | .ok x, .ok y =>
    match decEq x y with
    | isTrue h => isTrue (h ▸ rfl)
    | isFalse h => isFalse (fun hh => h (Except.ok.inj hh))
  | .error x, .error y =>
    match decEq x y with
    | isTrue h => isTrue (h ▸ rfl)
    | isFalse h => isFalse (fun hh => h (Except.error.inj hh))
  | .ok _, .error _ => isFalse (fun h => nomatch h)
  | .error _, .ok _ => isFalse (fun h => nomatch h)

/-- Reduction of `Except` bind on a success value. -/
theorem exceptBind_ok {α β ε : Type} (a : α) (f : α → Except ε β) :
    (Except.ok a >>= f) = f a := rfl

/-- Reduction of `Except` bind on an error value. -/
theorem exceptBind_error {α β ε : Type} (e : ε) (f : α → Except ε β) :
    (Except.error (α := α) e >>= f) = Except.error e := rfl

/-- Reduction of `pure` in the `Except` monad. -/
theorem exceptPure {α ε : Type} (a : α) :
    (pure a : Except ε α) = Except.ok a := rfl

/-- Python `s.replace("\n", "").replace("\r", "")` on a string. -/
def stripNewlinesStr (s : String) : String :=
  ⟨s.data.filter (fun c => !(c == '\n' || c == '\r'))⟩

/-- Python `s.replace("\n", "").replace("\r", "")`: strips newline characters
from a string, `AttributeError` on non-strings. -/
def pyStripNewlines : PyVal → Except PyErr PyVal
  | .str s => .ok (.str (stripNewlinesStr s))
  | _ => .error (.attributeError "replace")

/-- Python `for x in v` where the handler expects a list payload (schema
`allowedValues`); iteration over other payload shapes is not exercised by the
handler and is modelled as a `TypeError`. -/
def pyIterList : PyVal → Except PyErr (List PyVal)
  | .list xs => .ok xs
  | _ => .error (.typeError "object is not iterable")

/-- Embedding of the allowed-values loop of
`EntityIssueHandler.get_jira_value_for_shotgun_value` (lines 562-573): scan
the `allowedValues` entries in order; a dict entry matches when its `value` or
`name` key equals the lowered Shotgun name, a plain entry matches when its own
lowered form does; return the first matching entry. -/
def findAllowedValue (sg_value_name : String) : List PyVal → Except PyErr (Option PyVal)
  | [] => .ok Option.none
  | av :: rest =>
    match av with
    | .dict aes => do
      let hitValue ←
        match aes.lookup "value" with
        | some v => do
          let lv ← pyLower v
          pure (lv == sg_value_name)
        | Option.none => pure false
      if hitValue then pure (some av)
      else
        let hitName ←
          match aes.lookup "name" with
          | some v => do
            let lv ← pyLower v
            pure (lv == sg_value_name)
          | Option.none => pure false
        if hitName then pure (some av)
        else findAllowedValue sg_value_name rest
    | _ => do
      let lv ← pyLower av
      if lv == sg_value_name then pure (some av)
      else findAllowedValue sg_value_name rest

/-- Embedding of `EntityIssueHandler.get_jira_value_for_shotgun_value`
(lines 509-623). -/
def get_jira_value_for_shotgun_value (b : Bridge) (jira_project : PyVal)
    (jira_issue : JiraIssue) (jira_field : String) (jira_field_schema : PyVal)
    (shotgun_value : PyVal) : Except PyErr PyVal := do
  if shotgun_value == PyVal.none then return .none
  let schemaDict ← jira_field_schema.getItem "schema"
  let jira_type ← schemaDict.getItem "type"
  if !shotgun_value.truthy then
    if jira_type == PyVal.str "string" then return .str ""
    else return .none
  let shotgun_value :=
    if shotgun_value.isDict then b.consolidate_entity shotgun_value []
    else shotgun_value
  let allowed_values ← jira_field_schema.dictGet "allowedValues"
  if allowed_values.truthy then do
    let sg_value_name ←
      if shotgun_value.isDict then shotgun_value.getItem "name"
      else pure shotgun_value
    let lowered ← pyLower sg_value_name
    let avs ← pyIterList allowed_values
    match ← findAllowedValue lowered avs with
    | some av => return av
    | Option.none => return .none
  else
    if jira_field == "assignee" then
      match shotgun_value with
      | .dict ses => do
        let email := (ses.lookup "email").getD .none
        if !email.truthy then return .none
        return b.find_jira_assignee_for_issue email jira_project jira_issue
      | _ => return b.find_jira_assignee_for_issue shotgun_value jira_project jira_issue
    else if jira_field == "labels" then
      if shotgun_value.isDict then shotgun_value.getItem "name"
      else return shotgun_value
    else if jira_field == "summary" then
      pyStripNewlines shotgun_value
    else if jira_field == "timetracking" then
      match shotgun_value with
      | .int n => return .dict [("originalEstimate", .str (toString n ++ " m"))]
      | _ => .error (.typeError "%d format: a number is required")
    else
      return shotgun_value

/-- Embedding of the removals loop of the array branch of
`EntityIssueHandler.get_jira_value_for_shotgun_list_changes` (lines 425-442):
translate each removed Shotgun value and delete it from the current list when
present (a missing entry is only logged). -/
def removeLoopArray (t : PyVal → Except PyErr PyVal) (cur : List PyVal) :
    List PyVal → Except PyErr (List PyVal)
  | [] => .ok cur
  | r :: rest => do
    let v ← t r
    if v ∈ cur then removeLoopArray t (cur.erase v) rest
    else removeLoopArray t cur rest

/-- Embedding of the additions loop of the array branch of
`EntityIssueHandler.get_jira_value_for_shotgun_list_changes` (lines 444-453):
translate each added Shotgun value and append it when truthy and not already
present.  The membership test on a non-list current value (e.g. `None`)
raises `TypeError`, as in Python. -/
def addLoopArray (t : PyVal → Except PyErr PyVal) (cur : PyVal) :
    List PyVal → Except PyErr PyVal
  | [] => .ok cur
  | a :: rest => do
    let v ← t a
    if !v.truthy then addLoopArray t cur rest
    else
      match cur with
      | .list xs =>
        if v ∈ xs then addLoopArray t cur rest
        else addLoopArray t (.list (xs ++ [v])) rest
      | _ => .error (.typeError "argument of type is not iterable")

/-- Embedding of the whole array branch of
`EntityIssueHandler.get_jira_value_for_shotgun_list_changes` (lines 423-454). -/
def arrayListChanges (t : PyVal → Except PyErr PyVal) (cur : PyVal)
    (shotgun_added shotgun_removed : List PyVal) : Except PyErr PyVal := do
  let c1 ←
    if cur.truthy then
      match cur with
      | .list xs => do
        let ys ← removeLoopArray t xs shotgun_removed
        pure (PyVal.list ys)
      | _ => .error (.typeError "argument of type is not iterable")
    else pure cur
  addLoopArray t c1 shotgun_added

/-- Embedding of the removals loop of the scalar branch (lines 458-478):
if some removed value translates to the current scalar value, clear it. -/
def scalarRemoveLoop (t : PyVal → Except PyErr PyVal) (cur : PyVal) :
    List PyVal → Except PyErr PyVal
  | [] => .ok cur
  | r :: rest => do
    let v ← t r
    if v == cur then pure PyVal.none
    else scalarRemoveLoop t cur rest

/-- Embedding of the additions loop of the scalar branch (lines 480-505):
adopt the first added value that translates to a truthy Jira value. -/
def scalarAddLoop (t : PyVal → Except PyErr PyVal) (cur : PyVal) :
    List PyVal → Except PyErr PyVal
  | [] => .ok cur
  | a :: rest => do
    let v ← t a
    if v.truthy then pure v
    else scalarAddLoop t cur rest

/-- Embedding of `EntityIssueHandler.get_jira_value_for_shotgun_list_changes`
(lines 399-507). -/
def get_jira_value_for_shotgun_list_changes (b : Bridge) (jira_project : PyVal)
    (jira_issue : JiraIssue) (jira_field : String) (jira_field_schema : PyVal)
    (shotgun_added shotgun_removed : List PyVal) : Except PyErr PyVal := do
  let current_value ← jira_issue.fieldAttr jira_field
  let schemaDict ← jira_field_schema.getItem "schema"
  let stype ← schemaDict.getItem "type"
  let t := get_jira_value_for_shotgun_value b jira_project jira_issue jira_field jira_field_schema
  if stype == PyVal.str "array" then
    arrayListChanges t current_value shotgun_added shotgun_removed
  else do
    let cur1 ←
      if current_value.truthy then scalarRemoveLoop t current_value shotgun_removed
      else pure current_value
    if !cur1.truthy && !shotgun_added.isEmpty then scalarAddLoop t cur1 shotgun_added
    else pure cur1

/-- Specification-side predicate: the allowed-value entry `av` matches the
lowered Shotgun name `low` case-insensitively through its `value` key, its
`name` key, or (for plain string entries) itself. -/
def allowedEntryMatches (low : String) (av : PyVal) : Bool :=
  match av with
  | .dict aes =>
    (match aes.lookup "value" with
     | some (.str s) => strLower s == low
     | _ => false) ||
    (match aes.lookup "name" with
     | some (.str s) => strLower s == low
     | _ => false)
  | .str s => strLower s == low
  | _ => false

/-- Shape condition on an allowed-value entry under which the matching loop
cannot raise: a dict whose `value` and `name` keys, when present, hold
strings, or a plain string. -/
def allowedEntryWellFormed (av : PyVal) : Bool :=
  match av with
  | .dict aes =>
    (match aes.lookup "value" with
     | some (.str _) => true
     | some _ => false
     | Option.none => true) &&
    (match aes.lookup "name" with
     | some (.str _) => true
     | some _ => false
     | Option.none => true)
  | .str _ => true
  | _ => false

/-- The allowed-values loop returns exactly the first entry matching the
lowered name, scanning in list order. -/
theorem findAllowedValue_eq_find (low : String) (avs : List PyVal)
    (h : ∀ av ∈ avs, allowedEntryWellFormed av = true) :
    findAllowedValue low avs = .ok (avs.find? (allowedEntryMatches low)) := by
  induction avs with
  | nil => rfl
  | cons av rest ih =>
    have hav := h av (List.mem_cons_self av rest)
    have hrest := fun a ha => h a (List.mem_cons_of_mem av ha)
    cases av with
    | dict aes =>
      simp only [allowedEntryWellFormed, Bool.and_eq_true] at hav
      obtain ⟨hv, hn⟩ := hav
      simp only [findAllowedValue, List.find?, allowedEntryMatches]
      cases hlv : aes.lookup "value" with
      | some v =>
        rw [hlv] at hv
        cases v with
        | str s =>
          simp only [pyLower, exceptBind_ok, exceptPure]
          by_cases hm : (strLower s == low) = true
          · simp [hm]
          · simp only [Bool.not_eq_true] at hm
            simp only [hm, if_false, Bool.false_or]
            cases hln : aes.lookup "name" with
            | some w =>
              rw [hln] at hn
              cases w with
              | str s2 =>
                simp only [pyLower, exceptBind_ok, exceptPure]
                by_cases hm2 : (strLower s2 == low) = true
                · simp [hm2]
                · simp only [Bool.not_eq_true] at hm2
                  simp only [hm2, if_false, Bool.false_eq_true, ih hrest]
              | none => exact absurd hn (by simp)
              | bool x => exact absurd hn (by simp)
              | int x => exact absurd hn (by simp)
              | list x => exact absurd hn (by simp)
              | dict x => exact absurd hn (by simp)
              | resource x => exact absurd hn (by simp)
            | none =>
              simp only [exceptPure, exceptBind_ok, if_false, Bool.false_eq_true, ih hrest]
        | none => exact absurd hv (by simp)
        | bool x => exact absurd hv (by simp)
        | int x => exact absurd hv (by simp)
        | list x => exact absurd hv (by simp)
        | dict x => exact absurd hv (by simp)
        | resource x => exact absurd hv (by simp)
      | none =>
        simp only [exceptPure, exceptBind_ok, if_false, Bool.false_or]
        cases hln : aes.lookup "name" with
        | some w =>
          rw [hln] at hn
          cases w with
          | str s2 =>
            simp only [pyLower, exceptBind_ok, exceptPure]
            by_cases hm2 : (strLower s2 == low) = true
            · simp [hm2]
            · simp only [Bool.not_eq_true] at hm2
              simp only [hm2, if_false, Bool.false_eq_true, ih hrest]
          | none => exact absurd hn (by simp)
          | bool x => exact absurd hn (by simp)
          | int x => exact absurd hn (by simp)
          | list x => exact absurd hn (by simp)
          | dict x => exact absurd hn (by simp)
          | resource x => exact absurd hn (by simp)
        | none =>
          simp only [exceptPure, exceptBind_ok, if_false, Bool.false_eq_true, ih hrest]
    | str s =>
      simp only [findAllowedValue, List.find?, allowedEntryMatches, pyLower,
        exceptBind_ok, exceptPure]
      by_cases hm : (strLower s == low) = true
      · simp [hm]
      · simp only [Bool.not_eq_true] at hm
        simp only [hm, if_false, Bool.false_eq_true, ih hrest]
    | none => exact absurd (h _ (List.mem_cons_self _ _)) (by simp [allowedEntryWellFormed])
    | bool x => exact absurd (h _ (List.mem_cons_self _ _)) (by simp [allowedEntryWellFormed])
    | int x => exact absurd (h _ (List.mem_cons_self _ _)) (by simp [allowedEntryWellFormed])
    | list x => exact absurd (h _ (List.mem_cons_self _ _)) (by simp [allowedEntryWellFormed])
    | resource x => exact absurd (h _ (List.mem_cons_self _ _)) (by simp [allowedEntryWellFormed])

/-- A concrete bridge configuration used by the closed witness and
counterexample theorems. -/
def testBridge : Bridge where
  issue_type := "Task"
  sg_jira_statuses_mapping := [("ip", "In Progress"), ("fin", "Done")]
  jira_shotgun_id_field := "sgid"
  jira_shotgun_type_field := "sgtype"
  jira_shotgun_url_field := "sgurl"
  get_jira_issue_field_for_shotgun_field := fun _ _ => Option.none
  get_shotgun_entity_field_for_issue_field := fun _ => Option.none
  supported_shotgun_fields_for_jira_event := []
  issue_type_by_name := fun n => ⟨"10001", .dict [("name", .str n)]⟩
  createmeta := fun _ _ => .dict []
  current_user := "sync-bot"
  find_jira_user := fun _ => Option.none
  find_jira_assignee_for_issue := fun _ _ _ => .none
  get_jira_issue_field_id := fun s => .str s
  editmeta := fun _ => .dict []
  sanitize_jira_update_value := fun v _ => .ok v
  set_jira_issue_status := fun _ _ _ => true
  jira_user_by_key := fun k => ⟨k, k ++ "@studio.com"⟩
  create_issue := fun f => .resource f
  get_field_schema := fun _ _ => .none
  consolidate_entity := fun e _ => e
  get_entity_page_url := fun _ => "https://sg/detail/1"
  find_one_humanuser_by_email := fun _ => .none
  match_entity_by_name := fun _ _ _ => .none

/-- An otherwise fully well-formed Jira issue-updated event whose `issuetype`
dict carries an `id` but no `name` key. -/
def eventWithoutIssuetypeName : PyVal :=
  .dict [("issue", .dict [("fields", .dict [("issuetype", .dict [("id", .str "10002")]),
                                            ("sgid", .str "3"), ("sgtype", .str "Task")])]),
         ("webhookEvent", .str "jira:issue_updated"),
         ("changelog", .dict [("items", .list [.dict []])])]

/-- C1, counterexample: `accept_jira_event` is not total — on an event whose
`issuetype` dict lacks a `name` key it raises `KeyError` instead of returning
`False`. -/
theorem accept_jira_event_raises_on_missing_issuetype_name :
    accept_jira_event testBridge "Issue" "FOO-1" eventWithoutIssuetypeName =
      .error (.keyError "name") := by
  rfl

/-- C1 (amended): `accept_jira_event` returns a boolean — rather than
raising — on every event that is a dict whose `issue`, `issue.fields` and
`issue.fields.issuetype` components, when present and truthy, are dicts, with
the `issuetype` dict carrying a `name` key; and whenever the event carries no
truthy changelog the result is `False`. -/
theorem accept_jira_event_total_on_wellformed (b : Bridge) (rt rid : String)
    (event : PyVal) (h : acceptEventWellFormed event = true) :
    ∃ res : Bool, accept_jira_event b rt rid event = .ok res ∧
      ((subDict event "changelog").truthy = false → res = false) := by
  cases event with
  | none => simp [acceptEventWellFormed, PyVal.isDict] at h
  | bool x => simp [acceptEventWellFormed, PyVal.isDict] at h
  | int x => simp [acceptEventWellFormed, PyVal.isDict] at h
  | str x => simp [acceptEventWellFormed, PyVal.isDict] at h
  | list xs => simp [acceptEventWellFormed, PyVal.isDict] at h
  | resource r => simp [acceptEventWellFormed, PyVal.isDict] at h
  | dict es =>
    simp only [acceptEventWellFormed, subDict, PyVal.isDict, Bool.true_and,
      Bool.and_eq_true, Bool.or_eq_true, Bool.not_eq_true'] at h
    unfold accept_jira_event
    by_cases hrt : strLower rt ≠ "issue"
    · rw [if_pos hrt]
      exact ⟨false, rfl, fun _ => rfl⟩
    · rw [if_neg hrt]
      simp only [PyVal.dictGet]
      by_cases hiss : ((es.lookup "issue").getD .none).truthy
      · rcases h with h | ⟨hissDict, h⟩
        · simp_all
        · cases hIv : (es.lookup "issue").getD .none with
          | dict ies =>
            rw [hIv] at hiss h
            dsimp only at h
            simp only [hiss, Bool.not_true, Bool.false_eq_true, if_false]
            by_cases hweb : (!((es.lookup "webhookEvent").getD .none).truthy ||
                !((es.lookup "webhookEvent").getD .none == PyVal.str "jira:issue_updated" ||
                  (es.lookup "webhookEvent").getD .none == PyVal.str "jira:issue_created")) = true
            · rw [if_pos hweb]
              exact ⟨false, rfl, fun _ => rfl⟩
            · rw [if_neg hweb]
              by_cases hch : ((es.lookup "changelog").getD .none).truthy
              · simp only [hch, Bool.not_true, Bool.false_eq_true, if_false]
                by_cases hfl : ((ies.lookup "fields").getD .none).truthy
                · rcases h with h | ⟨hflDict, h⟩
                  · simp_all
                  · cases hFv : (ies.lookup "fields").getD .none with
                    | dict fes =>
                      rw [hFv] at hfl h
                      dsimp only at h
                      simp only [hfl, Bool.not_true, Bool.false_eq_true, if_false]
                      by_cases hit : ((fes.lookup "issuetype").getD .none).truthy
                      · rcases h with h | ⟨hitDict, hname⟩
                        · simp_all
                        · cases hTv : (fes.lookup "issuetype").getD .none with
                          | dict tes =>
                            rw [hTv] at hit hname
                            simp only [hit, Bool.not_true, Bool.false_eq_true, if_false]
                            simp only [PyVal.hasKey] at hname
                            simp only [PyVal.getItem]
                            cases hnv : List.lookup "name" tes with
                            | none => simp_all
                            | some nv =>
                              dsimp only
                              by_cases hn : (!(nv == PyVal.str b.issue_type)) = true
                              · rw [if_pos hn]
                                exact ⟨false, rfl, fun _ => rfl⟩
                              · rw [if_neg hn]
                                by_cases hsg : (!((fes.lookup b.jira_shotgun_id_field).getD .none).truthy ||
                                    !((fes.lookup b.jira_shotgun_type_field).getD .none).truthy) = true
                                · rw [if_pos hsg]
                                  exact ⟨false, rfl, fun _ => rfl⟩
                                · rw [if_neg hsg]
                                  refine ⟨true, rfl, fun hcl => ?_⟩
                                  simp only [subDict] at hcl
                                  rw [hcl] at hch
                                  simp at hch
                          | none => simp_all
                          | bool x => simp_all
                          | int x => simp_all
                          | str x => simp_all
                          | list x => simp_all
                          | resource x => simp_all
                      · simp only [hit, Bool.not_false, if_true]
                        exact ⟨false, rfl, fun _ => rfl⟩
                    | none => simp_all
                    | bool x => simp_all
                    | int x => simp_all
                    | str x => simp_all
                    | list x => simp_all
                    | resource x => simp_all
                · simp only [hfl, Bool.not_false, if_true]
                  exact ⟨false, rfl, fun _ => rfl⟩
              · simp only [hch, Bool.not_false, if_true]
                exact ⟨false, rfl, fun _ => rfl⟩
          | none => simp_all
          | bool x => simp_all
          | int x => simp_all
          | str x => simp_all
          | list x => simp_all
          | resource x => simp_all
      · simp only [hiss, Bool.not_false, if_true]
        exact ⟨false, rfl, fun _ => rfl⟩

/-- C1 witness: the amended totality theorem applied at the concrete
counterexample bridge and a concrete well-formed event. -/
theorem accept_jira_event_total_on_wellformed_witness :
    ∃ res : Bool,
      accept_jira_event testBridge "Issue" "FOO-1"
        (.dict [("issue", .dict [("fields",
            .dict [("issuetype", .dict [("name", .str "Task")]),
                   ("sgid", .str "3"), ("sgtype", .str "Task")])]),
          ("webhookEvent", .str "jira:issue_updated")]) = .ok res ∧
      ((subDict (.dict [("issue", .dict [("fields",
            .dict [("issuetype", .dict [("name", .str "Task")]),
                   ("sgid", .str "3"), ("sgtype", .str "Task")])]),
          ("webhookEvent", .str "jira:issue_updated")]) "changelog").truthy = false →
        res = false) :=
  accept_jira_event_total_on_wellformed testBridge "Issue" "FOO-1" _ (by decide)

/-- C6: on a field schema with a non-empty `allowedValues` set and a truthy
Shotgun value (with the schema payload and the value's name form well-shaped),
`get_jira_value_for_shotgun_value` returns exactly the first allowed entry
whose `value` or `name` matches the lowered Shotgun name case-insensitively —
the entry object itself, never the input casing — and `None` when no entry
matches, never a coerced value. -/
theorem get_jira_value_for_shotgun_value_allowed_exact (b : Bridge)
    (jira_project : PyVal) (jira_issue : JiraIssue) (jira_field : String)
    (jira_field_schema sd jt sv2 nm : PyVal) (avs : List PyVal)
    (shotgun_value : PyVal) (low : String)
    (hsv : shotgun_value.truthy = true)
    (hsch : jira_field_schema.getItem "schema" = .ok sd)
    (hjt : sd.getItem "type" = .ok jt)
    (hcons : (if shotgun_value.isDict then b.consolidate_entity shotgun_value []
              else shotgun_value) = sv2)
    (hav : jira_field_schema.dictGet "allowedValues" = .ok (.list avs))
    (havs : avs ≠ [])
    (hwf : ∀ av ∈ avs, allowedEntryWellFormed av = true)
    (hname : (if sv2.isDict then sv2.getItem "name" else pure sv2) = Except.ok nm)
    (hlow : pyLower nm = .ok low) :
    get_jira_value_for_shotgun_value b jira_project jira_issue jira_field
        jira_field_schema shotgun_value =
      .ok ((avs.find? (allowedEntryMatches low)).getD PyVal.none) := by
  have h0 : (shotgun_value == PyVal.none) = false := by
    rw [beq_eq_false_iff_ne]
    intro h
    rw [h] at hsv
    simp [PyVal.truthy] at hsv
  have hne : avs.isEmpty = false := by
    cases avs with
    | nil => exact absurd rfl havs
    | cons a l => rfl
  have hlt : (PyVal.list avs).truthy = true := by simp [PyVal.truthy, hne]
  simp only [get_jira_value_for_shotgun_value, h0, Bool.false_eq_true, if_false,
    hsch, exceptBind_ok, hjt, hsv, Bool.not_true, hcons, hav, hlt,
    pyIterList, exceptPure, Bool.not_false, if_true]
  by_cases hd : sv2.isDict = true
  · rw [if_pos hd] at hname
    simp only [hd, if_true, hname, exceptBind_ok, hlow,
      findAllowedValue_eq_find low avs hwf]
    cases hf : avs.find? (allowedEntryMatches low) with
    | none => simp [hf]
    | some av => simp [hf]
  · rw [if_neg hd] at hname
    have hsvnm : sv2 = nm := by
      simpa [exceptPure] using hname
    subst hsvnm
    simp only [hd, Bool.false_eq_true, if_false, hlow, exceptBind_ok,
      findAllowedValue_eq_find low avs hwf]
    cases hf : avs.find? (allowedEntryMatches low) with
    | none => simp [hf]
    | some av => simp [hf]

/-- C6 witness: the allowed-values theorem applied at a concrete schema with
two allowed entries and a Shotgun value differing from the match in casing. -/
theorem get_jira_value_for_shotgun_value_allowed_exact_witness :
    get_jira_value_for_shotgun_value testBridge (.dict []) ⟨"K", []⟩ "priority"
        (.dict [("schema", .dict [("type", .str "priority")]),
                ("allowedValues", .list [.dict [("name", .str "High")], .str "Low"])])
        (.str "hIgH") =
      .ok ((([PyVal.dict [("name", PyVal.str "High")], PyVal.str "Low"].find?
          (allowedEntryMatches "high")).getD PyVal.none)) :=
  get_jira_value_for_shotgun_value_allowed_exact testBridge (.dict []) ⟨"K", []⟩
    "priority"
    (.dict [("schema", .dict [("type", .str "priority")]),
            ("allowedValues", .list [.dict [("name", .str "High")], .str "Low"])])
    (.dict [("type", .str "priority")]) (.str "priority") (.str "hIgH") (.str "hIgH")
    [.dict [("name", .str "High")], .str "Low"] (.str "hIgH") "high"
    (by decide) (by decide) (by decide) (by decide) (by decide) (by decide)
    (by decide) (by decide) (by decide)

/-- Pure form of the array-branch removals loop: fold erasure of the
translated values over the current list. -/
def erasePure (tf : PyVal → PyVal) (xs : List PyVal) (removed : List PyVal) : List PyVal :=
  removed.foldl (fun acc r => acc.erase (tf r)) xs

/-- Pure form of the array-branch additions loop: append each translated value
that is truthy and not already present. -/
def addPure (tf : PyVal → PyVal) (xs : List PyVal) : List PyVal → List PyVal
  | [] => xs
  | a :: rest =>
    if (tf a).truthy = true ∧ tf a ∉ xs then addPure tf (xs ++ [tf a]) rest
    else addPure tf xs rest

/-- The monadic removals loop computes the pure fold when every translation
succeeds. -/
theorem removeLoopArray_eq (t : PyVal → Except PyErr PyVal) (tf : PyVal → PyVal)
    (xs rs : List PyVal) (ht : ∀ r ∈ rs, t r = .ok (tf r)) :
    removeLoopArray t xs rs = .ok (erasePure tf xs rs) := by
  induction rs generalizing xs with
  | nil => rfl
  | cons r rest ih =>
    have h := ht r (List.mem_cons_self r rest)
    have hrest := fun a ha => ht a (List.mem_cons_of_mem r ha)
    simp only [removeLoopArray, h, exceptBind_ok, erasePure, List.foldl_cons]
    by_cases hm : tf r ∈ xs
    · rw [if_pos hm]
      exact ih (xs.erase (tf r)) hrest
    · rw [if_neg hm, List.erase_of_not_mem hm] at *
      exact ih xs hrest

/-- The monadic additions loop computes the pure fold when every translation
succeeds and the current value is a list. -/
theorem addLoopArray_eq (t : PyVal → Except PyErr PyVal) (tf : PyVal → PyVal)
    (xs as : List PyVal) (ht : ∀ a ∈ as, t a = .ok (tf a)) :
    addLoopArray t (.list xs) as = .ok (.list (addPure tf xs as)) := by
  induction as generalizing xs with
  | nil => rfl
  | cons a rest ih =>
    have h := ht a (List.mem_cons_self a rest)
    have hrest := fun x hx => ht x (List.mem_cons_of_mem a hx)
    simp only [addLoopArray, h, exceptBind_ok]
    by_cases htr : (tf a).truthy = true
    · rw [if_neg (by simp [htr])]
      rw [show addPure tf xs (a :: rest) =
          if (tf a).truthy = true ∧ tf a ∉ xs then addPure tf (xs ++ [tf a]) rest
          else addPure tf xs rest from rfl]
      by_cases hm : tf a ∈ xs
      · rw [if_pos hm, if_neg (fun hcc => hcc.2 hm)]
        exact ih xs hrest
      · rw [if_neg hm, if_pos ⟨htr, hm⟩]
        exact ih (xs ++ [tf a]) hrest
    · rw [if_pos (by simp [Bool.not_eq_true] at htr ⊢; exact htr)]
      rw [show addPure tf xs (a :: rest) =
          if (tf a).truthy = true ∧ tf a ∉ xs then addPure tf (xs ++ [tf a]) rest
          else addPure tf xs rest from rfl]
      rw [if_neg (fun hcc => htr hcc.1)]
      exact ih xs hrest

/-- Erasing from the empty list leaves the empty list. -/
theorem erasePure_nil (tf : PyVal → PyVal) (rs : List PyVal) :
    erasePure tf [] rs = [] := by
  induction rs with
  | nil => rfl
  | cons r rest ih => simpa [erasePure, List.foldl_cons] using ih

/-- The array branch computes the pure removals fold followed by the pure
additions fold when every translation succeeds. -/
theorem arrayListChanges_eq (t : PyVal → Except PyErr PyVal) (tf : PyVal → PyVal)
    (xs added removed : List PyVal)
    (htr : ∀ r ∈ removed, t r = .ok (tf r)) (hta : ∀ a ∈ added, t a = .ok (tf a)) :
    arrayListChanges t (.list xs) added removed =
      .ok (.list (addPure tf (erasePure tf xs removed) added)) := by
  unfold arrayListChanges
  cases xs with
  | nil =>
    simp [PyVal.truthy, exceptPure, exceptBind_ok, erasePure_nil,
      addLoopArray_eq t tf [] added hta]
  | cons x xs' =>
    have htl : (PyVal.list (x :: xs')).truthy = true := by simp [PyVal.truthy]
    simp only [htl, if_true, removeLoopArray_eq t tf (x :: xs') removed htr,
      exceptBind_ok, exceptPure,
      addLoopArray_eq t tf (erasePure tf (x :: xs') removed) added hta]

/-- Membership in the pure removals fold, over a duplicate-free current
list: exactly the current entries whose value is not a translated removal. -/
theorem mem_erasePure (tf : PyVal → PyVal) (xs rs : List PyVal) (v : PyVal)
    (hnd : xs.Nodup) :
    v ∈ erasePure tf xs rs ↔ v ∈ xs ∧ ∀ r ∈ rs, tf r ≠ v := by
  induction rs generalizing xs with
  | nil => simp [erasePure]
  | cons r rest ih =>
    have hnd2 : (xs.erase (tf r)).Nodup := hnd.erase (tf r)
    simp only [erasePure, List.foldl_cons] at *
    rw [ih (xs.erase (tf r)) hnd2]
    rw [hnd.mem_erase_iff]
    constructor
    · rintro ⟨⟨hne, hx⟩, hall⟩
      refine ⟨hx, ?_⟩
      intro a ha
      rcases List.mem_cons.mp ha with rfl | ha2
      · exact fun hh => hne hh.symm
      · exact hall a ha2
    · rintro ⟨hx, hall⟩
      refine ⟨⟨?_, hx⟩, ?_⟩
      · intro hh
        exact hall r (List.mem_cons_self r rest) hh.symm
      · intro a ha
        exact hall a (List.mem_cons_of_mem r ha)

/-- The pure removals fold preserves freedom from duplicates. -/
theorem nodup_erasePure (tf : PyVal → PyVal) (xs rs : List PyVal)
    (hnd : xs.Nodup) : (erasePure tf xs rs).Nodup := by
  induction rs generalizing xs with
  | nil => exact hnd
  | cons r rest ih =>
    simp only [erasePure, List.foldl_cons]
    exact ih (xs.erase (tf r)) (hnd.erase (tf r))

/-- Membership in the pure additions fold: the current entries plus every
truthy translated addition. -/
theorem mem_addPure (tf : PyVal → PyVal) (xs as : List PyVal) (v : PyVal) :
    v ∈ addPure tf xs as ↔
      v ∈ xs ∨ ∃ a ∈ as, (tf a).truthy = true ∧ tf a = v := by
  induction as generalizing xs with
  | nil => simp [addPure]
  | cons a rest ih =>
    simp only [addPure]
    by_cases hc : (tf a).truthy = true ∧ tf a ∉ xs
    · rw [if_pos hc, ih]
      have hm : v ∈ xs ++ [tf a] ↔ v ∈ xs ∨ v = tf a := by simp
      rw [hm]
      constructor
      · rintro ((hx | rfl) | ⟨w, hw, hwt, rfl⟩)
        · exact Or.inl hx
        · exact Or.inr ⟨a, List.mem_cons_self a rest, hc.1, rfl⟩
        · exact Or.inr ⟨w, List.mem_cons_of_mem a hw, hwt, rfl⟩
      · rintro (hx | ⟨w, hw, hwt, rfl⟩)
        · exact Or.inl (Or.inl hx)
        · rcases List.mem_cons.mp hw with rfl | hw2
          · exact Or.inl (Or.inr rfl)
          · exact Or.inr ⟨w, hw2, hwt, rfl⟩
    · rw [if_neg hc, ih]
      constructor
      · rintro (hx | ⟨w, hw, hwt, rfl⟩)
        · exact Or.inl hx
        · exact Or.inr ⟨w, List.mem_cons_of_mem a hw, hwt, rfl⟩
      · rintro (hx | ⟨w, hw, hwt, rfl⟩)
        · exact Or.inl hx
        · rcases List.mem_cons.mp hw with rfl | hw2
          · rcases Classical.em (tf w ∈ xs) with hin | hout
            · exact Or.inl hin
            · exact absurd ⟨hwt, hout⟩ hc
          · exact Or.inr ⟨w, hw2, hwt, rfl⟩

/-- The pure additions fold preserves freedom from duplicates. -/
theorem nodup_addPure (tf : PyVal → PyVal) (xs as : List PyVal)
    (hnd : xs.Nodup) : (addPure tf xs as).Nodup := by
  induction as generalizing xs with
  | nil => exact hnd
  | cons a rest ih =>
    simp only [addPure]
    by_cases hc : (tf a).truthy = true ∧ tf a ∉ xs
    · rw [if_pos hc]
      refine ih (xs ++ [tf a]) ?_
      simp [List.nodup_append, hnd, hc.2]
    · rw [if_neg hc]
      exact ih xs hnd

/-- A Jira field schema of array type with no allowed-values restriction. -/
def arrayFieldSchema : PyVal := .dict [("schema", .dict [("type", .str "array")])]

/-- An issue whose `labels` array holds the same value twice. -/
def issueWithDupLabels : JiraIssue := ⟨"FOO-2", [("labels", .list [.str "x", .str "x"])]⟩

/-- The same issue after one application of the `removed=["x"]` delta. -/
def issueAfterOneRemoval : JiraIssue := ⟨"FOO-2", [("labels", .list [.str "x"])]⟩

/-- C7, counterexample: list reconciliation is not idempotent for every
current value — on a current array holding a value twice, applying the delta
`removed = ["x"]` once leaves one copy, and applying it a second time to that
result removes the remaining copy, so the end collections differ. -/
theorem list_changes_not_idempotent_on_duplicates :
    get_jira_value_for_shotgun_list_changes testBridge (.dict []) issueWithDupLabels
        "labels" arrayFieldSchema [] [.str "x"] = .ok (.list [.str "x"]) ∧
    get_jira_value_for_shotgun_list_changes testBridge (.dict []) issueAfterOneRemoval
        "labels" arrayFieldSchema [] [.str "x"] = .ok (.list []) ∧
    PyVal.str "x" ∈ [PyVal.str "x"] ∧ PyVal.str "x" ∉ ([] : List PyVal) := by
  decide

/-- C7 (amended): on an array-typed target field, for a duplicate-free
current value, list reconciliation is idempotent up to membership — when the
first application of an added/removed delta yields `ys` and re-applying the
same delta to an issue carrying `ys` yields `zs`, then `zs` and `ys` hold
exactly the same elements (already-present translated additions are never
appended again). -/
theorem get_jira_value_for_shotgun_list_changes_idempotent_nodup
    (b : Bridge) (jira_project : PyVal) (issue1 issue2 : JiraIssue)
    (jira_field : String) (jira_field_schema sd : PyVal)
    (added removed xs ys zs : List PyVal) (tf : PyVal → PyVal)
    (hsch : jira_field_schema.getItem "schema" = .ok sd)
    (hjt : sd.getItem "type" = .ok (.str "array"))
    (hcur1 : issue1.fieldAttr jira_field = .ok (.list xs))
    (hnd : xs.Nodup)
    (ht1r : ∀ r ∈ removed, get_jira_value_for_shotgun_value b jira_project issue1
        jira_field jira_field_schema r = .ok (tf r))
    (ht1a : ∀ a ∈ added, get_jira_value_for_shotgun_value b jira_project issue1
        jira_field jira_field_schema a = .ok (tf a))
    (h1 : get_jira_value_for_shotgun_list_changes b jira_project issue1
        jira_field jira_field_schema added removed = .ok (.list ys))
    (hcur2 : issue2.fieldAttr jira_field = .ok (.list ys))
    (ht2r : ∀ r ∈ removed, get_jira_value_for_shotgun_value b jira_project issue2
        jira_field jira_field_schema r = .ok (tf r))
    (ht2a : ∀ a ∈ added, get_jira_value_for_shotgun_value b jira_project issue2
        jira_field jira_field_schema a = .ok (tf a))
    (h2 : get_jira_value_for_shotgun_list_changes b jira_project issue2
        jira_field jira_field_schema added removed = .ok (.list zs)) :
    ∀ v, v ∈ zs ↔ v ∈ ys := by
  have harr : (PyVal.str "array" == PyVal.str "array") = true := rfl
  have e1 : get_jira_value_for_shotgun_list_changes b jira_project issue1
      jira_field jira_field_schema added removed =
      arrayListChanges (get_jira_value_for_shotgun_value b jira_project issue1
        jira_field jira_field_schema) (.list xs) added removed := by
    simp only [get_jira_value_for_shotgun_list_changes, hcur1, exceptBind_ok,
      hsch, hjt, harr, if_true]
  have e2 : get_jira_value_for_shotgun_list_changes b jira_project issue2
      jira_field jira_field_schema added removed =
      arrayListChanges (get_jira_value_for_shotgun_value b jira_project issue2
        jira_field jira_field_schema) (.list ys) added removed := by
    simp only [get_jira_value_for_shotgun_list_changes, hcur2, exceptBind_ok,
      hsch, hjt, harr, if_true]
  rw [e1, arrayListChanges_eq _ tf xs added removed ht1r ht1a] at h1
  rw [e2, arrayListChanges_eq _ tf ys added removed ht2r ht2a] at h2
  have hys : addPure tf (erasePure tf xs removed) added = ys :=
    PyVal.list.inj (Except.ok.inj h1)
  have hzs : addPure tf (erasePure tf ys removed) added = zs :=
    PyVal.list.inj (Except.ok.inj h2)
  have hndY : ys.Nodup := by
    rw [← hys]
    exact nodup_addPure tf _ added (nodup_erasePure tf xs removed hnd)
  intro v
  have hY : v ∈ ys ↔ (v ∈ xs ∧ ∀ r ∈ removed, tf r ≠ v) ∨
      ∃ a ∈ added, (tf a).truthy = true ∧ tf a = v := by
    rw [← hys, mem_addPure, mem_erasePure tf xs removed v hnd]
  have hZ : v ∈ zs ↔ (v ∈ ys ∧ ∀ r ∈ removed, tf r ≠ v) ∨
      ∃ a ∈ added, (tf a).truthy = true ∧ tf a = v := by
    rw [← hzs, mem_addPure, mem_erasePure tf ys removed v hndY]
  rw [hZ, hY]
  constructor
  · rintro (⟨⟨hx, hr⟩ | hA, hr2⟩ | hA)
    · exact Or.inl ⟨hx, hr⟩
    · exact Or.inr hA
    · exact Or.inr hA
  · rintro (⟨hx, hr⟩ | hA)
    · exact Or.inl ⟨Or.inl ⟨hx, hr⟩, hr⟩
    · exact Or.inr hA

/-- C7 witness: the amended idempotence theorem applied to a concrete issue
with labels `["a", "x"]`, delta `added = ["b"]`, `removed = ["x"]`, whose
first application yields `["a", "b"]` and whose second application leaves it
unchanged. -/
theorem get_jira_value_for_shotgun_list_changes_idempotent_nodup_witness :
    PyVal.str "a" ∈ [PyVal.str "a", PyVal.str "b"] ↔
      PyVal.str "a" ∈ [PyVal.str "a", PyVal.str "b"] :=
  get_jira_value_for_shotgun_list_changes_idempotent_nodup testBridge (.dict [])
    ⟨"K1", [("labels", .list [.str "a", .str "x"])]⟩
    ⟨"K2", [("labels", .list [.str "a", .str "b"])]⟩
    "labels" arrayFieldSchema (.dict [("type", .str "array")])
    [.str "b"] [.str "x"]
    [.str "a", .str "x"] [.str "a", .str "b"] [.str "a", .str "b"]
    (fun v => v)
    (by decide) (by decide) (by decide) (by decide) (by decide) (by decide)
    (by decide) (by decide) (by decide) (by decide) (by decide)
    (PyVal.str "a")

/-- Python `d.get(k, default)` on dicts. -/
def PyVal.dictGetD : PyVal → String → PyVal → Except PyErr PyVal
  | .dict es, k, d => .ok ((es.lookup k).getD d)
  | _, _, _ => .error (.attributeError "get")

/-- The `.raw` unwrap applied to `jira.resources.Resource` instances
(`isinstance(value, jira.resources.Resource)` followed by `value.raw`);
other values pass through. -/
def rawIfResource : PyVal → PyVal
  | .resource raw => raw
  | v => v

/-- Embedding of `EntityIssueHandler.get_jira_issue_edit_meta` (lines
377-397): fetch the edit metadata and fail with `RuntimeError` when it
carries no truthy `fields`. -/
def get_jira_issue_edit_meta (b : Bridge) (jira_issue : JiraIssue) :
    Except PyErr PyVal := do
  let edit_meta_data := b.editmeta jira_issue
  let jira_edit_fields ← edit_meta_data.dictGet "fields"
  if !jira_edit_fields.truthy then
    .error (.runtimeError ("Unable to retrieve edit meta data for " ++ jira_issue.key))
  else pure jira_edit_fields

/-- Embedding of `EntityIssueHandler.get_jira_issue_field_sync_value`
(lines 236-366).  Exception message texts are elided; the
`InvalidShotgunValue` error carries the Jira field and the untranslatable
Shotgun value as in the Python exception class. -/
def get_jira_issue_field_sync_value (b : Bridge) (jira_project : PyVal)
    (jira_issue : JiraIssue) (shotgun_entity_type shotgun_field : String)
    (shotgun_event_meta : PyVal) : Except PyErr (Option String × PyVal) := do
  let field_schema := b.get_field_schema shotgun_entity_type shotgun_field
  if !field_schema.truthy then
    .error (.valueError ("Unknown Shotgun " ++ shotgun_entity_type ++ " " ++
      shotgun_field ++ " field"))
  else
    match b.get_jira_issue_field_for_shotgun_field shotgun_entity_type shotgun_field with
    | Option.none => pure (Option.none, PyVal.none)
    | some jira_field =>
      if jira_field = "" then pure (Option.none, PyVal.none)
      else do
        let jira_fields ← get_jira_issue_edit_meta b jira_issue
        if !(jira_fields.hasKey jira_field) then pure (Option.none, PyVal.none)
        else do
          let fieldSchema ← jira_fields.getItem jira_field
          let schemaDict ← fieldSchema.getItem "schema"
          let stype ← schemaDict.getItem "type"
          let is_array := stype == PyVal.str "array"
          let jira_value ←
            if shotgun_event_meta.hasKey "added" || shotgun_event_meta.hasKey "removed" then do
              let shotgun_added ← shotgun_event_meta.dictGetD "added" (.list [])
              let shotgun_removed ← shotgun_event_meta.dictGetD "removed" (.list [])
              let addedList ← pyIterList shotgun_added
              let removedList ← pyIterList shotgun_removed
              let jv ← get_jira_value_for_shotgun_list_changes b jira_project
                jira_issue jira_field fieldSchema addedList removedList
              if is_array then do
                let items ← pyIterList jv
                pure (PyVal.list (items.map rawIfResource))
              else
                pure (rawIfResource jv)
            else do
              let shotgun_value ← shotgun_event_meta.getItem "new_value"
              let jv ← get_jira_value_for_shotgun_value b jira_project
                jira_issue jira_field fieldSchema shotgun_value
              if jv == PyVal.none && shotgun_value.truthy then
                .error (.invalidShotgunValue jira_field shotgun_value
                  "Couldn't translate Shotgun value to a valid value for Jira field")
              else
                let jv := rawIfResource jv
                if is_array then
                  pure (if jv.truthy then PyVal.list [jv] else PyVal.list [])
                else pure jv
          match b.sanitize_jira_update_value jira_value fieldSchema with
          | .error _ => pure (Option.none, PyVal.none)
          | .ok v => pure (some jira_field, v)

/-- C2: for a snapshot-form change (no `added`/`removed` keys, a `new_value`
key present), whenever the single-value translator returns `None` for a
truthy Shotgun source value, `get_jira_issue_field_sync_value` raises
`InvalidShotgunValue` (carrying the Jira field and the Shotgun value) instead
of silently dropping the change. -/
theorem get_jira_issue_field_sync_value_untranslatable_raises (b : Bridge)
    (jira_project : PyVal) (jira_issue : JiraIssue)
    (shotgun_entity_type shotgun_field jira_field : String)
    (shotgun_event_meta jfields fieldSchema sd stype sv : PyVal)
    (hfs : (b.get_field_schema shotgun_entity_type shotgun_field).truthy = true)
    (hjf : b.get_jira_issue_field_for_shotgun_field shotgun_entity_type shotgun_field =
      some jira_field)
    (hjfne : jira_field ≠ "")
    (hedit : get_jira_issue_edit_meta b jira_issue = .ok jfields)
    (hhk : jfields.hasKey jira_field = true)
    (hfsch : jfields.getItem jira_field = .ok fieldSchema)
    (hsd : fieldSchema.getItem "schema" = .ok sd)
    (hst : sd.getItem "type" = .ok stype)
    (hnoadd : shotgun_event_meta.hasKey "added" = false)
    (hnorem : shotgun_event_meta.hasKey "removed" = false)
    (hnv : shotgun_event_meta.getItem "new_value" = .ok sv)
    (hsvt : sv.truthy = true)
    (htr : get_jira_value_for_shotgun_value b jira_project jira_issue jira_field
      fieldSchema sv = .ok PyVal.none) :
    get_jira_issue_field_sync_value b jira_project jira_issue shotgun_entity_type
        shotgun_field shotgun_event_meta =
      .error (.invalidShotgunValue jira_field sv
        "Couldn't translate Shotgun value to a valid value for Jira field") := by
  simp only [get_jira_issue_field_sync_value, hfs, Bool.not_true, Bool.false_eq_true,
    if_false, hjf, hjfne, hedit, exceptBind_ok, hhk, Bool.not_false, if_true,
    hfsch, hsd, hst, hnoadd, hnorem, Bool.or_self, hnv, htr, hsvt, Bool.and_true]
  rfl

/-- C2 witness: the untranslatable-value theorem applied at a concrete
snapshot change of an `assignee` field whose Shotgun user dict carries no
email, which the translator maps to `None`. -/
theorem get_jira_issue_field_sync_value_untranslatable_raises_witness :
    get_jira_issue_field_sync_value
        { testBridge with
          get_field_schema := fun _ _ => .dict [("data_type", .str "entity")],
          get_jira_issue_field_for_shotgun_field := fun _ _ => some "assignee",
          editmeta := fun _ => .dict [("fields", .dict [("assignee",
            .dict [("schema", .dict [("type", .str "user")])])])] }
        (.dict []) ⟨"K", []⟩ "Task" "task_assignees"
        (.dict [("new_value", .dict [("type", .str "HumanUser"), ("id", .int 7)])]) =
      .error (.invalidShotgunValue "assignee"
        (.dict [("type", .str "HumanUser"), ("id", .int 7)])
        "Couldn't translate Shotgun value to a valid value for Jira field") :=
  get_jira_issue_field_sync_value_untranslatable_raises
    { testBridge with
      get_field_schema := fun _ _ => .dict [("data_type", .str "entity")],
      get_jira_issue_field_for_shotgun_field := fun _ _ => some "assignee",
      editmeta := fun _ => .dict [("fields", .dict [("assignee",
        .dict [("schema", .dict [("type", .str "user")])])])] }
    (.dict []) ⟨"K", []⟩ "Task" "task_assignees" "assignee"
    (.dict [("new_value", .dict [("type", .str "HumanUser"), ("id", .int 7)])])
    (.dict [("assignee", .dict [("schema", .dict [("type", .str "user")])])])
    (.dict [("schema", .dict [("type", .str "user")])])
    (.dict [("type", .str "user")]) (.str "user")
    (.dict [("type", .str "HumanUser"), ("id", .int 7)])
    (by decide) (by decide) (by decide) (by decide) (by decide) (by decide)
    (by decide) (by decide) (by decide) (by decide) (by decide) (by decide)
    (by decide)

/-- Python `s.split(sep)` on character lists (keeps empty components, as the
Python one-character-separator split does). -/
def splitChars (sep : Char) : List Char → List (List Char)
  | [] => [[]]
  | c :: cs =>
    let rest := splitChars sep cs
    if c = sep then [] :: rest
    else
      match rest with
      | r :: rs => (c :: r) :: rs
      | [] => [[c]]

/-- Python `s.split(" ")`. -/
def pySplitSpace (s : String) : List String :=
  (splitChars ' ' s.data).map fun cs => ⟨cs⟩

/-- Auxiliary for duplicate removal keeping first occurrences. -/
def dedupKeepFirstAux (seen : List String) : List String → List String
  | [] => []
  | x :: xs =>
    if x ∈ seen then dedupKeepFirstAux seen xs
    else x :: dedupKeepFirstAux (x :: seen) xs

/-- Python `set(tokens)` modelled as the token list with duplicates removed in
first-occurrence order (Python set iteration order is unspecified; this is
the canonical order used by the embedding). -/
def dedupKeepFirst (xs : List String) : List String := dedupKeepFirstAux [] xs

/-- The space-separated token set of a changelog string: empty for the empty
string (the code only splits truthy strings). -/
def strTokens (s : String) : List String :=
  if s = "" then [] else dedupKeepFirst (pySplitSpace s)

/-- Python set difference on token lists, keeping the left order. -/
def tokensDiff (xs ys : List String) : List String :=
  xs.filter fun x => decide (x ∉ ys)

/-- Python `.split` receiver check: only strings carry `split`. -/
def pyStrSplitArg : PyVal → Except PyErr String
  | .str s => .ok s
  | _ => .error (.attributeError "split")

/-- Whitespace stripped by Python `int(...)` around a numeric literal. -/
def isSpaceChar (c : Char) : Bool :=
  c == ' ' || c == '\t' || c == '\n' || c == '\r'

/-- Decimal digits to a number, `none` when empty or non-digit. -/
def digitsToNat (cs : List Char) : Option Nat :=
  if cs.isEmpty then Option.none
  else
    cs.foldl (fun acc c =>
      acc.bind fun n => if c.isDigit then some (n * 10 + (c.toNat - 48)) else Option.none)
      (some 0)

/-- Python `int(s)` literal parsing: optional surrounding whitespace, optional
sign, decimal digits. -/
def parseIntString (s : String) : Option Int :=
  let t := ((s.data.dropWhile isSpaceChar).reverse.dropWhile isSpaceChar).reverse
  match t with
  | '-' :: ds => (digitsToNat ds).map fun n => -(n : Int)
  | '+' :: ds => (digitsToNat ds).map fun n => (n : Int)
  | ds => (digitsToNat ds).map fun n => (n : Int)

/-- Python `int(x)`: `ValueError` on a malformed string (caught by the number
branch), `TypeError` on non-numeric receivers (not caught). -/
def pyInt : PyVal → Except PyErr Int
  | .str s =>
    match parseIntString s with
    | some n => .ok n
    | Option.none => .error (.valueError "invalid literal for int() with base 10")
  | .int n => .ok n
  | .bool bb => .ok (if bb then 1 else 0)
  | _ => .error (.typeError "int() argument must be a string or a number")

/-- Length of a month under the Gregorian leap rule. -/
def daysInMonth (y m : Nat) : Nat :=
  if m = 2 then (if (y % 4 = 0 ∧ y % 100 ≠ 0) ∨ y % 400 = 0 then 29 else 28)
  else if m = 4 ∨ m = 6 ∨ m = 9 ∨ m = 11 then 30 else 31

/-- Python `datetime.strptime(value, "%Y-%m-%d")` success: three dash-joined
digit groups (at most 4/2/2 digits), a year in 1..9999, a valid calendar
month and day. -/
def isValidDateYMD (s : String) : Bool :=
  match splitChars '-' s.data with
  | [ycs, mcs, dcs] =>
    match digitsToNat ycs, digitsToNat mcs, digitsToNat dcs with
    | some y, some m, some d =>
      decide (1 ≤ y ∧ y ≤ 9999) && decide (1 ≤ m ∧ m ≤ 12) &&
      decide (1 ≤ d ∧ d ≤ daysInMonth y m) &&
      decide (ycs.length ≤ 4) && decide (mcs.length ≤ 2) && decide (dcs.length ≤ 2)
    | _, _, _ => false
  | _ => false

/-- Python `fmt % arg` with a non-tuple right operand: the single argument
feeds the first conversion specifier, so a format string holding any other
number of `%s` specifiers raises `TypeError` (the formatted text itself is
elided). -/
def pyFormatOne (numSpecifiers : Nat) (arg : PyVal) : Except PyErr String :=
  if numSpecifiers = 1 then .ok "formatted"
  else .error (.typeError "not enough arguments for format string")

/-- The allowed-value scan of the `list` branch (lines 1086-1088): first
allowed entry equal to the new value case-insensitively. -/
def findListMatch (vLow : String) : List PyVal → Except PyErr (Option PyVal)
  | [] => .ok Option.none
  | a :: rest => do
    let aLow ← pyLower a
    if vLow == aLow then .ok (some a)
    else findListMatch vLow rest

/-- The reverse status lookup of the `status_list` branch (lines 1116-1118):
first mapping entry whose Jira name equals the value case-insensitively. -/
def statusLookupLoop (vLow : String) : List (String × String) → Option String
  | [] => Option.none
  | (sg_code, jira_name) :: rest =>
    if vLow == strLower jira_name then some sg_code
    else statusLookupLoop vLow rest

/-- Python `del xs[i]`. -/
def delAt (xs : List PyVal) (i : Nat) : Except PyErr (List PyVal) :=
  if i < xs.length then .ok (xs.eraseIdx i)
  else .error (.indexError "list assignment index out of range")

/-- Embedding of the inner removal scan of the `multi_entity` branch (lines
1160-1171): iterate `enumerate(list(current))` and `del current[i]` at every
matching snapshot index — the Python loop has no `break`, so later matches
delete at stale indices. -/
def removeTokenLoop (removedLower : String) : Nat → List PyVal → List PyVal →
    Except PyErr (List PyVal)
  | _, [], cur => .ok cur
  | i, sg :: rest, cur => do
    let nm ← sg.getItem "name"
    let nmLow ← pyLower nm
    if removedLower == nmLow then do
      let cur2 ← delAt cur i
      removeTokenLoop removedLower (i + 1) rest cur2
    else removeTokenLoop removedLower (i + 1) rest cur

/-- Embedding of the outer removal loop of the `multi_entity` branch (lines
1157-1171): one snapshot-and-delete pass per removed token. -/
def removeTokensLoop : List String → PyVal → Except PyErr PyVal
  | [], cur => .ok cur
  | tok :: rest, cur => do
    let snapshot ← pyIterList cur
    let curList ← pyIterList cur
    let cur2 ← removeTokenLoop (strLower tok) 0 snapshot curList
    removeTokensLoop rest (.list cur2)

/-- The token-set computation applied to each of `fromString`/`toString`
(lines 1138-1141): split a truthy string on spaces into a set of tokens, the
empty set otherwise. -/
def changelogTokens (v : PyVal) : Except PyErr (List String) :=
  if v.truthy then do
    let s ← pyStrSplitArg v
    pure (dedupKeepFirst (pySplitSpace s))
  else pure []

/-- Embedding of the already-present scan of the additions loop (lines
1177-1188). -/
def addTokenCheck (addedLower : String) : List PyVal → Except PyErr Bool
  | [] => .ok false
  | sg :: rest => do
    let nm ← sg.getItem "name"
    let nmLow ← pyLower nm
    if addedLower == nmLow then .ok true
    else addTokenCheck addedLower rest

/-- Embedding of the additions loop of the `multi_entity` branch (lines
1172-1210): append the record resolved by name in-project for each token not
already present; an unresolvable token is only logged. -/
def addTokensLoop (b : Bridge) (allowed_entities consolidated : PyVal) :
    List String → PyVal → Except PyErr PyVal
  | [], cur => .ok cur
  | tok :: rest, cur => do
    let curList ← pyIterList cur
    let present ← addTokenCheck (strLower tok) curList
    if present then addTokensLoop b allowed_entities consolidated rest cur
    else do
      let project ← consolidated.getItem "project"
      let sg_value := b.match_entity_by_name tok allowed_entities project
      if sg_value.truthy then
        addTokensLoop b allowed_entities consolidated rest (.list (curList ++ [sg_value]))
      else addTokensLoop b allowed_entities consolidated rest cur

/-- Embedding of `EntityIssueHandler.get_shotgun_value_from_jira_issue_change`
(lines 1045-1274).  The `jira_value` parameter is passed by the caller but
never read by the Python body, matching the source. -/
def get_shotgun_value_from_jira_issue_change (b : Bridge) (shotgun_entity : PyVal)
    (shotgun_field : String) (shotgun_field_schema : PyVal) (change : PyVal)
    (jira_value : PyVal) : Except PyErr PyVal := do
  let dtd ← shotgun_field_schema.getItem "data_type"
  let data_type ← dtd.getItem "value"
  if data_type == PyVal.str "text" then
    change.getItem "toString"
  else if data_type == PyVal.str "list" then do
    let value ← change.getItem "toString"
    if !value.truthy then pure (.str "")
    else do
      let props ← shotgun_field_schema.getItem "properties"
      let vv ← props.getItem "valid_values"
      let all_allowed ← vv.getItem "value"
      let allowedList ← pyIterList all_allowed
      let vLow ← pyLower value
      match ← findListMatch vLow allowedList with
      | some allowed => pure allowed
      | Option.none => do
        let all2 := allowedList ++ [value]
        let _ ← pyFormatOne 3 (.list all2)
        pure value
  else if data_type == PyVal.str "status_list" then do
    let value ← change.getItem "toString"
    if !value.truthy then pure PyVal.none
    else do
      let vLow ← pyLower value
      match statusLookupLoop vLow b.sg_jira_statuses_mapping with
      | some sg_code => pure (.str sg_code)
      | Option.none =>
        .error (.invalidJiraValue shotgun_field value
          "Unable to find a matching Shotgun status")
  else if data_type == PyVal.str "multi_entity" then do
    let props ← shotgun_field_schema.getItem "properties"
    let vt ← props.getItem "valid_types"
    let allowed_entities ← vt.getItem "value"
    let fromS ← change.getItem "fromString"
    let toS ← change.getItem "toString"
    let old_list ← changelogTokens fromS
    let new_list ← changelogTokens toS
    let removed_list := tokensDiff old_list new_list
    let added_list := tokensDiff new_list old_list
    let consolidated := b.consolidate_entity shotgun_entity [shotgun_field, "project"]
    if !consolidated.truthy then
      .error (.runtimeError "Unable to retrieve the entity from Shotgun")
    else do
      let current_sg_value ← consolidated.getItem shotgun_field
      let cur2 ← removeTokensLoop removed_list current_sg_value
      addTokensLoop b allowed_entities consolidated added_list cur2
  else if data_type == PyVal.str "date" then do
    let value ← change.getItem "to"
    if !value.truthy then pure PyVal.none
    else
      match value with
      | .str s =>
        if isValidDateYMD s then pure value
        else .error (.invalidJiraValue shotgun_field value "Unable to parse as a date")
      | _ => .error (.typeError "strptime() argument must be str")
  else if data_type == PyVal.str "duration" || data_type == PyVal.str "number" then do
    let value ← change.getItem "toString"
    if value == PyVal.none then pure PyVal.none
    else
      match pyInt value with
      | .ok n => pure (.int n)
      | .error (.valueError _) =>
        .error (.invalidJiraValue shotgun_field value "is not a valid integer")
      | .error e => .error e
  else if data_type == PyVal.str "checkbox" then do
    let value ← change.getItem "toString"
    pure (.bool value.truthy)
  else
    .error (.valueError ("Unsupported data type for " ++ shotgun_field ++ " change"))

/-- The lowered display name of a Shotgun entity entry, `none` when the entry
is not a dict holding a string `name`. -/
def nameLowerOf : PyVal → Option String
  | .dict es =>
    match es.lookup "name" with
    | some (.str s) => some (strLower s)
    | _ => Option.none
  | _ => Option.none

/-- Whether an entry's display name matches a lowered token. -/
def entryNameMatches (tl : String) (sg : PyVal) : Bool :=
  match nameLowerOf sg with
  | some nl => tl == nl
  | Option.none => false

/-- Specification-side removal (from the spec sentence): delete exactly the
first entry whose display name matches the token case-insensitively. -/
def removeFirstMatchTok (tl : String) : List PyVal → List PyVal
  | [] => []
  | sg :: rest =>
    if entryNameMatches tl sg then rest
    else sg :: removeFirstMatchTok tl rest

/-- Specification-side removals across all removed tokens. -/
def removeTokensPure (toks : List String) (cur : List PyVal) : List PyVal :=
  toks.foldl (fun c tok => removeFirstMatchTok (strLower tok) c) cur

/-- Specification-side additions: append the in-project record resolved by
name for each token not already present; drop unresolvable tokens. -/
def addTokensPure (b : Bridge) (allowed_entities project : PyVal)
    (toks : List String) (cur : List PyVal) : List PyVal :=
  toks.foldl (fun c tok =>
    if c.any (entryNameMatches (strLower tok)) then c
    else
      let m := b.match_entity_by_name tok allowed_entities project
      if m.truthy then c ++ [m] else c) cur

/-- A Shotgun enumeration (`list`) field schema with two allowed values. -/
def listFieldSchema : PyVal :=
  .dict [("data_type", .dict [("value", .str "list")]),
         ("properties", .dict [("valid_values", .dict [("value",
           .list [.str "High", .str "Low"])])])]

/-- C3: the first two behaviours of the `list` branch hold (empty after-string
yields the empty string; a case-insensitive match returns the stored allowed
value), but a new value never reaches the schema extension: the log statement
announcing the update formats a 3-specifier string against the bare list
(line 1094), raising `TypeError` before `schema_field_update` and
`clear_cached_field_schema` run and before the value is returned. -/
theorem list_branch_schema_extension_raises_type_error :
    get_shotgun_value_from_jira_issue_change testBridge
        (.dict [("type", .str "Task"), ("id", .int 1)]) "sg_priority" listFieldSchema
        (.dict [("toString", .str "")]) PyVal.none = .ok (.str "") ∧
    get_shotgun_value_from_jira_issue_change testBridge
        (.dict [("type", .str "Task"), ("id", .int 1)]) "sg_priority" listFieldSchema
        (.dict [("toString", .str "hIgH")]) PyVal.none = .ok (.str "High") ∧
    get_shotgun_value_from_jira_issue_change testBridge
        (.dict [("type", .str "Task"), ("id", .int 1)]) "sg_priority" listFieldSchema
        (.dict [("toString", .str "Urgent")]) PyVal.none =
      .error (.typeError "not enough arguments for format string") := by
  decide

/-- A Shotgun `multi_entity` field schema linking `Tag` records. -/
def multiEntityFieldSchema : PyVal :=
  .dict [("data_type", .dict [("value", .str "multi_entity")]),
         ("properties", .dict [("valid_types", .dict [("value",
           .list [.str "Tag"])])])]

/-- A bridge whose consolidation returns a tags list holding two entries whose
names both match the removed token `x` case-insensitively, plus a third
non-matching entry. -/
def dupNamesBridge : Bridge :=
  { testBridge with
    consolidate_entity := fun _ _ =>
      .dict [("tags", .list [.dict [("name", .str "X")], .dict [("name", .str "x")],
                             .dict [("name", .str "y")]]),
             ("project", .dict [("type", .str "Project"), ("id", .int 2)])] }

/-- C5, counterexample: for the removed token `x` against a current value
whose first two entries both match it case-insensitively, the code does not
delete only the first matching entry — the breakless delete-while-iterating
loop also deletes at the stale second index, removing the unrelated entry
`y`, so the result keeps the second match and loses `y` instead of keeping
both. -/
theorem multi_entity_removal_not_first_only :
    get_shotgun_value_from_jira_issue_change dupNamesBridge
        (.dict [("type", .str "Task"), ("id", .int 1)]) "tags" multiEntityFieldSchema
        (.dict [("fromString", .str "x"), ("toString", .str "")]) PyVal.none =
      .ok (.list [.dict [("name", .str "x")]]) ∧
    removeFirstMatchTok "x"
        [.dict [("name", .str "X")], .dict [("name", .str "x")],
         .dict [("name", .str "y")]] =
      [.dict [("name", .str "x")], .dict [("name", .str "y")]] ∧
    (PyVal.list [.dict [("name", .str "x")]] ≠
      PyVal.list [.dict [("name", .str "x")], .dict [("name", .str "y")]]) := by
  decide

/-- A well-named entry yields its `name` through `getItem` and `pyLower`. -/
theorem name_access_of_nameLowerOf (sg : PyVal) (nl : String)
    (h : nameLowerOf sg = some nl) :
    ∃ nm, sg.getItem "name" = .ok nm ∧ pyLower nm = .ok nl := by
  cases sg with
  | dict es =>
    simp only [nameLowerOf] at h
    cases hlk : es.lookup "name" with
    | none => rw [hlk] at h; cases h
    | some v =>
      rw [hlk] at h
      cases v with
      | str s =>
        refine ⟨.str s, ?_, ?_⟩
        · simp [PyVal.getItem, hlk]
        · simp only [Option.some.injEq] at h
          simp [pyLower, h]
      | none => cases h
      | bool x => cases h
      | int x => cases h
      | list x => cases h
      | dict x => cases h
      | resource x => cases h
  | none => cases h
  | bool x => cases h
  | int x => cases h
  | str x => cases h
  | list x => cases h
  | resource x => cases h

/-- The matching flag seen by the loops agrees with `entryNameMatches`. -/
theorem entryNameMatches_of_nameLowerOf (tl : String) (sg : PyVal) (nl : String)
    (h : nameLowerOf sg = some nl) : entryNameMatches tl sg = (tl == nl) := by
  simp [entryNameMatches, h]

/-- A removal scan over entries none of which match leaves the current list
untouched, for any running index. -/
theorem removeTokenLoop_no_match (tl : String) (rest : List PyVal)
    (hwf : ∀ sg ∈ rest, (nameLowerOf sg).isSome)
    (hno : ∀ sg ∈ rest, entryNameMatches tl sg = false) :
    ∀ (i : Nat) (cur : List PyVal), removeTokenLoop tl i rest cur = .ok cur := by
  induction rest with
  | nil => intro i cur; rfl
  | cons sg rest' ih =>
    intro i cur
    obtain ⟨nl, hnl⟩ := Option.isSome_iff_exists.mp (hwf sg (List.mem_cons_self sg rest'))
    obtain ⟨nm, hget, hlow⟩ := name_access_of_nameLowerOf sg nl hnl
    have hmm : (tl == nl) = false := by
      rw [← entryNameMatches_of_nameLowerOf tl sg nl hnl]
      exact hno sg (List.mem_cons_self sg rest')
    simp only [removeTokenLoop, hget, exceptBind_ok, hlow, hmm, Bool.false_eq_true,
      if_false]
    exact ih (fun a ha => hwf a (List.mem_cons_of_mem sg ha))
      (fun a ha => hno a (List.mem_cons_of_mem sg ha)) (i + 1) cur

/-- Deleting at the index right past a prefix removes the element there. -/
theorem eraseIdx_at_prefix (done : List PyVal) (sg : PyVal) (tail : List PyVal) :
    (done ++ sg :: tail).eraseIdx done.length = done ++ tail := by
  induction done with
  | nil => rfl
  | cons d ds ih => simpa [List.eraseIdx] using ih

/-- One snapshot pass of the Python removal loop, started after a scanned
prefix, equals the first-match removal of the remainder — provided at most
one entry of the remainder matches the token. -/
theorem removeTokenLoop_inv (tl : String) (rest : List PyVal)
    (hwf : ∀ sg ∈ rest, (nameLowerOf sg).isSome)
    (hone : rest.countP (fun sg => entryNameMatches tl sg) ≤ 1) :
    ∀ done : List PyVal, removeTokenLoop tl done.length rest (done ++ rest) =
      .ok (done ++ removeFirstMatchTok tl rest) := by
  induction rest with
  | nil => intro done; simp [removeTokenLoop, removeFirstMatchTok]
  | cons sg rest' ih =>
    intro done
    obtain ⟨nl, hnl⟩ := Option.isSome_iff_exists.mp (hwf sg (List.mem_cons_self sg rest'))
    obtain ⟨nm, hget, hlow⟩ := name_access_of_nameLowerOf sg nl hnl
    have hrestwf := fun a ha => hwf a (List.mem_cons_of_mem sg ha)
    by_cases hm : (tl == nl) = true
    · have hmatch : entryNameMatches tl sg = true := by
        rw [entryNameMatches_of_nameLowerOf tl sg nl hnl]; exact hm
      have hno : ∀ a ∈ rest', entryNameMatches tl a = false := by
        have h1 := hone
        simp [List.countP_cons, hmatch] at h1
        exact h1
      have hlen : done.length < (done ++ sg :: rest').length := by
        simp [List.length_append]
      simp only [removeTokenLoop, hget, exceptBind_ok, hlow, hm, if_true, delAt]
      rw [if_pos hlen, eraseIdx_at_prefix]
      simp only [exceptBind_ok]
      rw [removeTokenLoop_no_match tl rest' hrestwf hno (done.length + 1) (done ++ rest')]
      simp [removeFirstMatchTok, hmatch]
    · have hnm : entryNameMatches tl sg = false := by
        rw [entryNameMatches_of_nameLowerOf tl sg nl hnl]
        simpa using hm
      have hone' : rest'.countP (fun sg => entryNameMatches tl sg) ≤ 1 := by
        have h1 := hone
        simp [List.countP_cons, hnm] at h1
        omega
      have hmf : (tl == nl) = false := by simpa using hm
      simp only [removeTokenLoop, hget, exceptBind_ok, hlow, hmf, Bool.false_eq_true,
        if_false]
      have step := ih hrestwf hone' (done ++ [sg])
      have hlen2 : (done ++ [sg]).length = done.length + 1 := by simp
      rw [hlen2] at step
      have hassoc : (done ++ [sg]) ++ rest' = done ++ sg :: rest' := by simp
      rw [hassoc] at step
      rw [step]
      simp [removeFirstMatchTok, hnm]

/-- The first-match removal produces a sublist of the input. -/
theorem removeFirstMatchTok_sublist (tl : String) (xs : List PyVal) :
    (removeFirstMatchTok tl xs).Sublist xs := by
  induction xs with
  | nil => simp [removeFirstMatchTok]
  | cons sg rest ih =>
    simp only [removeFirstMatchTok]
    by_cases hm : entryNameMatches tl sg = true
    · rw [if_pos hm]
      exact List.sublist_cons_self sg rest
    · rw [if_neg hm]
      exact List.Sublist.cons₂ sg ih

/-- The full removal phase (one pass per token) computes the
specification-side fold when every token matches at most one current entry. -/
theorem removeTokensLoop_eq (toks : List String) (cur : List PyVal)
    (hwf : ∀ sg ∈ cur, (nameLowerOf sg).isSome)
    (hone : ∀ tok ∈ toks, cur.countP (fun sg => entryNameMatches (strLower tok) sg) ≤ 1) :
    removeTokensLoop toks (.list cur) = .ok (.list (removeTokensPure toks cur)) := by
  induction toks generalizing cur with
  | nil => rfl
  | cons tok rest ih =>
    have hsub := removeFirstMatchTok_sublist (strLower tok) cur
    have step := removeTokenLoop_inv (strLower tok) cur hwf
      (hone tok (List.mem_cons_self tok rest)) []
    simp only [List.length_nil, List.nil_append] at step
    simp only [removeTokensLoop, pyIterList, exceptBind_ok, step]
    rw [ih (removeFirstMatchTok (strLower tok) cur)
      (fun a ha => hwf a (hsub.mem ha))
      (fun t ht => le_trans (hsub.countP_le _) (hone t (List.mem_cons_of_mem tok ht)))]
    simp [removeTokensPure, List.foldl_cons]

/-- The already-present scan computes `List.any` of the name match. -/
theorem addTokenCheck_eq (tl : String) (cur : List PyVal)
    (hwf : ∀ sg ∈ cur, (nameLowerOf sg).isSome) :
    addTokenCheck tl cur = .ok (cur.any (entryNameMatches tl)) := by
  induction cur with
  | nil => rfl
  | cons sg rest ih =>
    obtain ⟨nl, hnl⟩ := Option.isSome_iff_exists.mp (hwf sg (List.mem_cons_self sg rest))
    obtain ⟨nm, hget, hlow⟩ := name_access_of_nameLowerOf sg nl hnl
    simp only [addTokenCheck, hget, exceptBind_ok, hlow, List.any_cons,
      entryNameMatches_of_nameLowerOf tl sg nl hnl]
    by_cases hm : (tl == nl) = true
    · simp [hm]
    · have hmf : (tl == nl) = false := by simpa using hm
      simp only [hmf, Bool.false_eq_true, if_false, Bool.false_or]
      exact ih fun a ha => hwf a (List.mem_cons_of_mem sg ha)

/-- The additions loop computes the specification-side fold, provided every
resolvable token resolves to a record with a proper display name (so that
later presence scans cannot raise). -/
theorem addTokensLoop_eq (b : Bridge) (allowed_entities consolidated proj : PyVal)
    (hproj : consolidated.getItem "project" = .ok proj)
    (toks : List String) (cur : List PyVal)
    (hwf : ∀ sg ∈ cur, (nameLowerOf sg).isSome)
    (hm : ∀ tok, (b.match_entity_by_name tok allowed_entities proj).truthy = true →
        (nameLowerOf (b.match_entity_by_name tok allowed_entities proj)).isSome) :
    addTokensLoop b allowed_entities consolidated toks (.list cur) =
      .ok (.list (addTokensPure b allowed_entities proj toks cur)) := by
  induction toks generalizing cur with
  | nil => rfl
  | cons tok rest ih =>
    simp only [addTokensLoop, pyIterList, exceptBind_ok,
      addTokenCheck_eq (strLower tok) cur hwf, addTokensPure, List.foldl_cons]
    by_cases hp : cur.any (entryNameMatches (strLower tok)) = true
    · simp only [hp, if_true]
      exact ih cur hwf
    · have hpf : cur.any (entryNameMatches (strLower tok)) = false := by simpa using hp
      simp only [hpf, Bool.false_eq_true, if_false, hproj, exceptBind_ok]
      by_cases ht : (b.match_entity_by_name tok allowed_entities proj).truthy = true
      · simp only [ht, if_true]
        exact ih (cur ++ [b.match_entity_by_name tok allowed_entities proj])
          (by
            intro a ha
            rcases List.mem_append.mp ha with h1 | h1
            · exact hwf a h1
            · rw [List.mem_singleton.mp h1]
              exact hm tok ht)
      · have htf : (b.match_entity_by_name tok allowed_entities proj).truthy = false := by
          simpa using ht
        simp only [htf, Bool.false_eq_true, if_false]
        exact ih cur hwf

/-- On a changelog string the token computation yields `strTokens`. -/
theorem changelogTokens_str (s : String) :
    changelogTokens (.str s) = .ok (strTokens s) := by
  by_cases hs : s = ""
  · subst hs
    simp [changelogTokens, PyVal.truthy, strTokens, exceptPure]
  · have ht : (PyVal.str s).truthy = true := by simp [PyVal.truthy, hs]
    simp [changelogTokens, ht, pyStrSplitArg, exceptBind_ok, exceptPure, strTokens, hs]

/-- The removal phase keeps a sublist of the current value. -/
theorem removeTokensPure_sublist (toks : List String) (cur : List PyVal) :
    (removeTokensPure toks cur).Sublist cur := by
  induction toks generalizing cur with
  | nil => exact List.Sublist.refl cur
  | cons tok rest ih =>
    simp only [removeTokensPure, List.foldl_cons]
    exact (ih (removeFirstMatchTok (strLower tok) cur)).trans
      (removeFirstMatchTok_sublist (strLower tok) cur)

/-- C5 (amended): in the `multi_entity` branch, removed and added token sets
are the set differences of the space-separated `fromString`/`toString`
tokens; each added token not already present by case-insensitive name match
is resolved among the field's valid linked types scoped to the entity's
project and appended when found, with unresolvable tokens dropped without
error; and — provided each removed token matches at most one current entry
case-insensitively — each removed token deletes exactly the first matching
current entry. -/
theorem get_shotgun_value_multi_entity_characterization (b : Bridge)
    (shotgun_entity : PyVal) (shotgun_field : String)
    (shotgun_field_schema change jv : PyVal)
    (dtd props vt allowed_entities consolidated proj : PyVal)
    (fs ts : String) (cur : List PyVal)
    (h1 : shotgun_field_schema.getItem "data_type" = .ok dtd)
    (h2 : dtd.getItem "value" = .ok (.str "multi_entity"))
    (h3 : shotgun_field_schema.getItem "properties" = .ok props)
    (h4 : props.getItem "valid_types" = .ok vt)
    (h5 : vt.getItem "value" = .ok allowed_entities)
    (h6 : change.getItem "fromString" = .ok (.str fs))
    (h7 : change.getItem "toString" = .ok (.str ts))
    (h8 : b.consolidate_entity shotgun_entity [shotgun_field, "project"] = consolidated)
    (h9 : consolidated.truthy = true)
    (h10 : consolidated.getItem shotgun_field = .ok (.list cur))
    (h11 : consolidated.getItem "project" = .ok proj)
    (hwf : ∀ sg ∈ cur, (nameLowerOf sg).isSome)
    (hone : ∀ tok ∈ tokensDiff (strTokens fs) (strTokens ts),
        cur.countP (fun sg => entryNameMatches (strLower tok) sg) ≤ 1)
    (hm : ∀ tok, (b.match_entity_by_name tok allowed_entities proj).truthy = true →
        (nameLowerOf (b.match_entity_by_name tok allowed_entities proj)).isSome) :
    get_shotgun_value_from_jira_issue_change b shotgun_entity shotgun_field
        shotgun_field_schema change jv =
      .ok (.list (addTokensPure b allowed_entities proj
        (tokensDiff (strTokens ts) (strTokens fs))
        (removeTokensPure (tokensDiff (strTokens fs) (strTokens ts)) cur))) := by
  have d1 : (PyVal.str "multi_entity" == PyVal.str "text") = false := rfl
  have d2 : (PyVal.str "multi_entity" == PyVal.str "list") = false := rfl
  have d3 : (PyVal.str "multi_entity" == PyVal.str "status_list") = false := rfl
  have d4 : (PyVal.str "multi_entity" == PyVal.str "multi_entity") = true := rfl
  simp only [get_shotgun_value_from_jira_issue_change, h1, exceptBind_ok, h2,
    d1, d2, d3, d4, Bool.false_eq_true, if_false, if_true, h3, h4, h5, h6, h7,
    changelogTokens_str, h8, h9, Bool.not_true, h10]
  rw [removeTokensLoop_eq _ cur hwf hone]
  simp only [exceptBind_ok]
  exact addTokensLoop_eq b allowed_entities consolidated proj h11
    (tokensDiff (strTokens ts) (strTokens fs))
    (removeTokensPure (tokensDiff (strTokens fs) (strTokens ts)) cur)
    (fun a ha => hwf a ((removeTokensPure_sublist _ cur).mem ha))
    hm

/-- C5 witness: the multi-entity characterization applied with before
`"Alice Bob"`, after `"Bob Carol"`, a current value `[Alice, Bob]`, and a
resolver that knows no record named `Carol`: `Alice` is removed, `Carol` is
dropped, leaving `[Bob]`. -/
theorem get_shotgun_value_multi_entity_characterization_witness :
    get_shotgun_value_from_jira_issue_change
        { testBridge with
          consolidate_entity := fun _ _ =>
            .dict [("tags", .list [.dict [("name", .str "Alice")],
                                   .dict [("name", .str "Bob")]]),
                   ("project", .dict [("type", .str "Project"), ("id", .int 2)])] }
        (.dict [("type", .str "Task"), ("id", .int 1)]) "tags" multiEntityFieldSchema
        (.dict [("fromString", .str "Alice Bob"), ("toString", .str "Bob Carol")])
        PyVal.none =
      .ok (.list (addTokensPure
        { testBridge with
          consolidate_entity := fun _ _ =>
            .dict [("tags", .list [.dict [("name", .str "Alice")],
                                   .dict [("name", .str "Bob")]]),
                   ("project", .dict [("type", .str "Project"), ("id", .int 2)])] }
        (.list [.str "Tag"]) (.dict [("type", .str "Project"), ("id", .int 2)])
        (tokensDiff (strTokens "Bob Carol") (strTokens "Alice Bob"))
        (removeTokensPure (tokensDiff (strTokens "Alice Bob") (strTokens "Bob Carol"))
          [.dict [("name", .str "Alice")], .dict [("name", .str "Bob")]]))) :=
  get_shotgun_value_multi_entity_characterization
    { testBridge with
      consolidate_entity := fun _ _ =>
        .dict [("tags", .list [.dict [("name", .str "Alice")],
                               .dict [("name", .str "Bob")]]),
               ("project", .dict [("type", .str "Project"), ("id", .int 2)])] }
    (.dict [("type", .str "Task"), ("id", .int 1)]) "tags" multiEntityFieldSchema
    (.dict [("fromString", .str "Alice Bob"), ("toString", .str "Bob Carol")])
    PyVal.none
    (.dict [("value", .str "multi_entity")])
    (.dict [("valid_types", .dict [("value", .list [.str "Tag"])])])
    (.dict [("value", .list [.str "Tag"])])
    (.list [.str "Tag"])
    (.dict [("tags", .list [.dict [("name", .str "Alice")],
                            .dict [("name", .str "Bob")]]),
            ("project", .dict [("type", .str "Project"), ("id", .int 2)])])
    (.dict [("type", .str "Project"), ("id", .int 2)])
    "Alice Bob" "Bob Carol"
    [.dict [("name", .str "Alice")], .dict [("name", .str "Bob")]]
    (by decide) (by decide) (by decide) (by decide) (by decide) (by decide)
    (by decide) (by decide) (by decide) (by decide) (by decide) (by decide)
    (by decide)
    (fun _ h => Bool.noConfusion h)

/-- Python dict entry iteration (`iteritems`): requires a dict. -/
def pyDictEntries : PyVal → Except PyErr (List (String × PyVal))
  | .dict es => .ok es
  | _ => .error (.attributeError "iteritems")

/-- Python `d[k] = v` on an entry list: overwrite in place or append. -/
def dictSet (es : List (String × PyVal)) (k : String) (v : PyVal) :
    List (String × PyVal) :=
  if (es.lookup k).isSome then es.map (fun kv => if kv.1 = k then (k, v) else kv)
  else es ++ [(k, v)]

/-- Python `d.update(other)`. -/
def dictUpdate (es : List (String × PyVal)) : List (String × PyVal) →
    List (String × PyVal)
  | [] => es
  | (k, v) :: rest => dictUpdate (dictSet es k v) rest

/-- Python `del d[k]`. -/
def dictDel (es : List (String × PyVal)) (k : String) : List (String × PyVal) :=
  es.filter (fun kv => kv.1 ≠ k)

/-- Embedding of the creation-metadata retrieval of
`EntityIssueHandler.create_jira_issue_for_entity` (lines 127-142): reject a
payload without a first project/issue type, then extract its `fields`. -/
def createMetaFields (create_meta_data : PyVal) : Except PyErr PyVal := do
  let projects ← create_meta_data.getItem "projects"
  if !projects.truthy then
    .error (.runtimeError "Unable to retrieve create meta data for Project Issue type")
  else do
    let p0 ← projects.index 0
    let issuetypes ← p0.getItem "issuetypes"
    if !issuetypes.truthy then
      .error (.runtimeError "Unable to retrieve create meta data for Project Issue type")
    else do
      let it0 ← issuetypes.index 0
      it0.getItem "fields"

/-- Embedding of the reporter resolution (lines 144-164): the Jira user
matched by the creator's email when the creator is a human user, the service
account user otherwise. -/
def reporterName (b : Bridge) (sg_entity : PyVal) (jira_project : JiraProject) :
    Except PyErr String := do
  let created_by ← sg_entity.getItem "created_by"
  let ctype ← created_by.getItem "type"
  if ctype == PyVal.str "HumanUser" then do
    let user := b.consolidate_entity created_by []
    if user.truthy then do
      let user_email ← user.getItem "email"
      match b.find_jira_user user_email with
      | some jira_user => pure jira_user.name
      | Option.none => pure b.current_user
    else pure b.current_user
  else pure b.current_user

/-- Embedding of the candidate data assembly (lines 166-183): the dict
literal of project, newline-stripped summary, defaulted description,
cross-reference fields, issue type, reporter, updated with the caller's extra
properties. -/
def assembleCreateData (b : Bridge) (sg_entity : PyVal) (jira_project : JiraProject)
    (jira_issue_type : JiraIssueType) (summary : String) (description : Option String)
    (properties : List (String × PyVal)) (reporter_name : String) :
    Except PyErr (List (String × PyVal)) := do
  let shotgun_url := b.get_entity_page_url sg_entity
  let sgid ← sg_entity.getItem "id"
  let sgidStr ←
    match sgid with
    | .int n => pure (toString n)
    | _ => Except.error (.typeError "%d format: a number is required")
  let sgtype ← sg_entity.getItem "type"
  pure (dictUpdate
    [("project", jira_project.raw),
     ("summary", .str (stripNewlinesStr summary)),
     ("description", .str (description.getD "")),
     (b.jira_shotgun_id_field, .str sgidStr),
     (b.jira_shotgun_type_field, sgtype),
     (b.jira_shotgun_url_field, .str shotgun_url),
     ("issuetype", jira_issue_type.raw),
     ("reporter", .dict [("name", .str reporter_name)])]
    properties)

/-- Embedding of validation pass A (lines 186-190): collect the display name
of every creation-metadata field that is required, has no default value and
is absent from the candidate data. -/
def missingLoop (data : List (String × PyVal)) :
    List (String × PyVal) → Except PyErr (List PyVal)
  | [] => .ok []
  | (k, f) :: rest =>
    if (data.lookup k).isSome then missingLoop data rest
    else do
      let req ← f.getItem "required"
      if req.truthy then do
        let hd ← f.getItem "hasDefaultValue"
        if !hd.truthy then do
          let nm ← f.getItem "name"
          let tail ← missingLoop data rest
          pure (nm :: tail)
        else missingLoop data rest
      else missingLoop data rest

/-- Embedding of validation pass B (lines 200-223): over a snapshot of the
candidate keys, drop candidates absent from the creation metadata, drop
empty required candidates with a server default, and collect empty required
candidates without one. -/
def passBLoop (fields_createmeta : List (String × PyVal)) :
    List String → List (String × PyVal) → List String →
    Except PyErr (List (String × PyVal) × List String)
  | [], data, invalid => .ok (data, invalid)
  | k :: keys, data, invalid =>
    match fields_createmeta.lookup k with
    | Option.none => passBLoop fields_createmeta keys (dictDel data k) invalid
    | some f =>
      if !((data.lookup k).getD .none).truthy then do
        let req ← f.getItem "required"
        if req.truthy then do
          let hd ← f.getItem "hasDefaultValue"
          if hd.truthy then passBLoop fields_createmeta keys (dictDel data k) invalid
          else passBLoop fields_createmeta keys data (invalid ++ [k])
        else passBLoop fields_createmeta keys data invalid
      else passBLoop fields_createmeta keys data invalid

/-- Embedding of `EntityIssueHandler.create_jira_issue_for_entity`
(lines 98-234).  The second component records the remote record-creation
calls issued (`create_issue` is the only mutating call of this method). -/
def create_jira_issue_for_entity (b : Bridge) (sg_entity : PyVal)
    (jira_project : JiraProject) (issue_type : String) (summary : String)
    (description : Option String) (properties : List (String × PyVal)) :
    (Except PyErr PyVal) × List Call :=
  let jira_issue_type := b.issue_type_by_name issue_type
  let create_meta_data := b.createmeta jira_project jira_issue_type.id
  match createMetaFields create_meta_data with
  | .error e => (.error e, [])
  | .ok fieldsMeta =>
    match reporterName b sg_entity jira_project with
    | .error e => (.error e, [])
    | .ok reporter_name =>
      match assembleCreateData b sg_entity jira_project jira_issue_type summary
          description properties reporter_name with
      | .error e => (.error e, [])
      | .ok data =>
        match pyDictEntries fieldsMeta with
        | .error e => (.error e, [])
        | .ok fields_createmeta =>
          match missingLoop data fields_createmeta with
          | .error e => (.error e, [])
          | .ok missing =>
            if !missing.isEmpty then
              match (PyVal.dict data).getItem "issuetype" with
              | .error e => (.error e, [])
              | .ok it =>
                match it.getItem "name" with
                | .error e => (.error e, [])
                | .ok _ =>
                  (.error (.valueError
                    "The following data is missing in order to create a Jira Issue"), [])
            else
              match passBLoop fields_createmeta (data.map (·.1)) data [] with
              | .error e => (.error e, [])
              | .ok (data2, invalid) =>
                if !invalid.isEmpty then
                  (.error (.valueError
                    "Unable to create Jira Issue: required fields are empty"), [])
                else
                  (.ok (b.create_issue (.dict data2)), [.createIssue (.dict data2)])

/-- A creation-metadata field whose `required`/`hasDefaultValue`/`name` keys
are all present (the shape the Python loop reads without raising). -/
def createFieldWellFormed (f : PyVal) : Bool :=
  match f with
  | .dict fes =>
    (fes.lookup "required").isSome && (fes.lookup "hasDefaultValue").isSome &&
      (fes.lookup "name").isSome
  | _ => false

/-- Whether a creation-metadata field is marked required with no default. -/
def requiredWithoutDefault (f : PyVal) : Bool :=
  match f with
  | .dict fes =>
    match fes.lookup "required", fes.lookup "hasDefaultValue" with
    | some r, some h => r.truthy && !h.truthy
    | _, _ => false
  | _ => false

/-- Specification-side pass A: display names of the required-without-default
metadata fields absent from the candidate data. -/
def requiredMissingNames (data : List (String × PyVal))
    (fields : List (String × PyVal)) : List PyVal :=
  fields.filterMap fun kf =>
    if (data.lookup kf.1).isSome then Option.none
    else
      match kf.2 with
      | .dict fes =>
        match fes.lookup "required", fes.lookup "hasDefaultValue", fes.lookup "name" with
        | some r, some h, some n => if r.truthy && !h.truthy then some n else Option.none
        | _, _, _ => Option.none
      | _ => Option.none

/-- Pass A computes the specification-side name collection on well-formed
creation metadata. -/
theorem missingLoop_eq (data : List (String × PyVal))
    (fields : List (String × PyVal))
    (hwf : ∀ kf ∈ fields, createFieldWellFormed kf.2 = true) :
    missingLoop data fields = .ok (requiredMissingNames data fields) := by
  induction fields with
  | nil => rfl
  | cons kf rest ih =>
    obtain ⟨k, f⟩ := kf
    have hf := hwf (k, f) (List.mem_cons_self _ rest)
    have hrest := fun a ha => hwf a (List.mem_cons_of_mem _ ha)
    cases f with
    | dict fes =>
      simp only [createFieldWellFormed, Bool.and_eq_true] at hf
      obtain ⟨⟨hr, hh⟩, hn⟩ := hf
      obtain ⟨r, hrv⟩ := Option.isSome_iff_exists.mp hr
      obtain ⟨hd, hhv⟩ := Option.isSome_iff_exists.mp hh
      obtain ⟨n, hnv⟩ := Option.isSome_iff_exists.mp hn
      simp only [missingLoop, requiredMissingNames, List.filterMap_cons]
      cases habs : data.lookup k with
      | some v =>
        simp only [habs, Option.isSome_some, if_true]
        rw [ih hrest]
        simp [requiredMissingNames]
      | none =>
        simp only [habs, Option.isSome_none, Bool.false_eq_true, if_false,
          PyVal.getItem, hrv, exceptBind_ok, hhv, hnv]
        by_cases hrt : r.truthy = true
        · simp only [hrt, if_true]
          by_cases hht : hd.truthy = true
          · simp only [hht, Bool.not_true, Bool.false_eq_true, if_false,
              Bool.and_false]
            rw [ih hrest]
            simp [requiredMissingNames]
          · have hht' : hd.truthy = false := by simpa using hht
            simp only [hht', Bool.not_false, if_true, Bool.and_true, exceptBind_ok,
              ih hrest, exceptPure]
            simp [requiredMissingNames]
        · have hrt' : r.truthy = false := by simpa using hrt
          simp only [hrt', Bool.false_eq_true, if_false, Bool.false_and,
            ih hrest]
          simp [requiredMissingNames]
    | none => simp [createFieldWellFormed] at hf
    | bool x => simp [createFieldWellFormed] at hf
    | int x => simp [createFieldWellFormed] at hf
    | str x => simp [createFieldWellFormed] at hf
    | list x => simp [createFieldWellFormed] at hf
    | resource x => simp [createFieldWellFormed] at hf

/-- C4: when some creation-metadata field is required, lacks a default value
and is absent from the assembled candidate data, creation aborts with a
validation error and no remote record-creation call is made (the recorded
call log stays empty — `create_issue` never runs). -/
theorem create_jira_issue_missing_required_aborts (b : Bridge)
    (sg_entity : PyVal) (jira_project : JiraProject) (issue_type summary : String)
    (description : Option String) (properties : List (String × PyVal))
    (fieldsMeta it itn : PyVal) (reporter_name : String)
    (data fields_createmeta : List (String × PyVal))
    (hmeta : createMetaFields (b.createmeta jira_project
      (b.issue_type_by_name issue_type).id) = .ok fieldsMeta)
    (hrep : reporterName b sg_entity jira_project = .ok reporter_name)
    (hdata : assembleCreateData b sg_entity jira_project
      (b.issue_type_by_name issue_type) summary description properties
      reporter_name = .ok data)
    (hentries : pyDictEntries fieldsMeta = .ok fields_createmeta)
    (hwf : ∀ kf ∈ fields_createmeta, createFieldWellFormed kf.2 = true)
    (hex : ∃ kf ∈ fields_createmeta, data.lookup kf.1 = Option.none ∧
      requiredWithoutDefault kf.2 = true)
    (hit : (PyVal.dict data).getItem "issuetype" = .ok it)
    (hitn : it.getItem "name" = .ok itn) :
    create_jira_issue_for_entity b sg_entity jira_project issue_type summary
        description properties =
      (.error (.valueError
        "The following data is missing in order to create a Jira Issue"), []) := by
  have hne : requiredMissingNames data fields_createmeta ≠ [] := by
    intro hnil
    obtain ⟨⟨k, f⟩, hmem, habs, hreq⟩ := hex
    have hall := List.filterMap_eq_nil_iff.mp hnil (k, f) hmem
    rw [habs] at hall
    simp only [Option.isSome_none, Bool.false_eq_true, if_false] at hall
    cases f with
    | dict fes =>
      simp only [requiredWithoutDefault] at hreq
      cases hrv : fes.lookup "required" with
      | none => rw [hrv] at hreq; cases hreq
      | some r =>
        cases hhv : fes.lookup "hasDefaultValue" with
        | none => rw [hrv, hhv] at hreq; cases hreq
        | some hd =>
          rw [hrv, hhv] at hreq
          dsimp only at hreq hall
          have hfw := hwf (k, PyVal.dict fes) hmem
          simp only [createFieldWellFormed, Bool.and_eq_true] at hfw
          obtain ⟨⟨_, _⟩, hn⟩ := hfw
          obtain ⟨n, hnv⟩ := Option.isSome_iff_exists.mp hn
          rw [hrv, hhv, hnv] at hall
          dsimp only at hall
          rw [hreq] at hall
          simp at hall
    | none => simp [requiredWithoutDefault] at hreq
    | bool x => simp [requiredWithoutDefault] at hreq
    | int x => simp [requiredWithoutDefault] at hreq
    | str x => simp [requiredWithoutDefault] at hreq
    | list x => simp [requiredWithoutDefault] at hreq
    | resource x => simp [requiredWithoutDefault] at hreq
  have hneb : (requiredMissingNames data fields_createmeta).isEmpty = false := by
    cases hv : requiredMissingNames data fields_createmeta with
    | nil => exact absurd hv hne
    | cons a l => rfl
  simp only [create_jira_issue_for_entity, hmeta, hrep, hdata, hentries,
    missingLoop_eq data fields_createmeta hwf, hneb, Bool.not_false, if_true,
    hit, hitn]

/-- Creation metadata for a required `components` field without default. -/
def componentsFieldMeta : PyVal :=
  .dict [("required", .bool true), ("hasDefaultValue", .bool false),
         ("name", .str "Components")]

/-- A createmeta payload whose only issue type requires `components`. -/
def componentsCreateMeta : PyVal :=
  .dict [("projects",
    .list [.dict [("issuetypes",
      .list [.dict [("fields", .dict [("components", componentsFieldMeta)])]])]])]

/-- A bridge whose creation metadata is `componentsCreateMeta`. -/
def createTestBridge : Bridge :=
  { testBridge with createmeta := fun _ _ => componentsCreateMeta }

/-- A Shotgun Task entity created by a script user. -/
def createTestEntity : PyVal :=
  .dict [("id", .int 3), ("type", .str "Task"),
         ("created_by", .dict [("type", .str "ApiUser")])]

/-- C4 witness: the abort theorem applied to a concrete creation where the
metadata requires a `components` field with no default that the candidate
data does not carry. -/
theorem create_jira_issue_missing_required_aborts_witness :
    create_jira_issue_for_entity createTestBridge createTestEntity
      ⟨.dict [("key", .str "PRJ")]⟩ "Task" "My summary" Option.none [] =
      (.error (.valueError
        "The following data is missing in order to create a Jira Issue"), []) :=
  create_jira_issue_missing_required_aborts createTestBridge createTestEntity
    ⟨.dict [("key", .str "PRJ")]⟩ "Task" "My summary" Option.none []
    (.dict [("components", componentsFieldMeta)])
    (.dict [("name", .str "Task")]) (.str "Task") "sync-bot"
    [("project", .dict [("key", .str "PRJ")]),
     ("summary", .str "My summary"),
     ("description", .str ""),
     ("sgid", .str "3"),
     ("sgtype", .str "Task"),
     ("sgurl", .str "https://sg/detail/1"),
     ("issuetype", .dict [("name", .str "Task")]),
     ("reporter", .dict [("name", .str "sync-bot")])]
    [("components", componentsFieldMeta)]
    (by decide) (by decide) (by decide) (by decide) (by decide)
    (by decide) (by decide) (by decide)

/-- Embedding of `EntityIssueHandler.sync_shotgun_status_to_jira`
(lines 625-641): the second component records the remote status-transition
calls issued. -/
def sync_shotgun_status_to_jira (b : Bridge) (jira_issue : JiraIssue)
    (shotgun_status : String) (comment : String) : Bool × List Call :=
  match b.sg_jira_statuses_mapping.lookup shotgun_status with
  | Option.none => (false, [])
  | some jira_status =>
    if jira_status = "" then (false, [])
    else (b.set_jira_issue_status jira_issue jira_status comment,
          [.setIssueStatus jira_issue.key jira_status comment])

/-- C9: a Shotgun status short code that is not a key of
`sg_jira_statuses_mapping` makes `sync_shotgun_status_to_jira` return `False`
after a warning, with no remote status-transition call recorded. -/
theorem sync_shotgun_status_to_jira_unmapped_false (b : Bridge)
    (jira_issue : JiraIssue) (shotgun_status comment : String)
    (h : b.sg_jira_statuses_mapping.lookup shotgun_status = Option.none) :
    sync_shotgun_status_to_jira b jira_issue shotgun_status comment = (false, []) := by
  simp [sync_shotgun_status_to_jira, h]

/-- C9 witness: the unmapped-status theorem applied at a status code absent
from the concrete mapping. -/
theorem sync_shotgun_status_to_jira_unmapped_false_witness :
    sync_shotgun_status_to_jira testBridge ⟨"FOO-1", []⟩ "omt" "Done in SG" =
      (false, []) :=
  sync_shotgun_status_to_jira_unmapped_false testBridge ⟨"FOO-1", []⟩ "omt"
    "Done in SG" (by decide)

/-- Embedding of one pass of `EntityIssueHandler.sync_shotgun_cced_changes_to_jira`
(lines 652-690); the two loops of the source are textually identical except
for the watcher call they make, passed here as `mk`. -/
def watcherPass (b : Bridge) (jira_issue : JiraIssue)
    (mk : String → String → Call) : List PyVal → Except PyErr (List Call)
  | [] => .ok []
  | user :: rest => do
    let utype ← user.getItem "type"
    if utype == PyVal.str "HumanUser" then do
      let sg_user := b.consolidate_entity user []
      if sg_user.truthy then do
        let email ← sg_user.getItem "email"
        match b.find_jira_user email with
        | some jira_user => do
          let tail ← watcherPass b jira_issue mk rest
          pure (mk jira_issue.key jira_user.name :: tail)
        | Option.none => watcherPass b jira_issue mk rest
      else watcherPass b jira_issue mk rest
    else watcherPass b jira_issue mk rest

/-- Embedding of `EntityIssueHandler.sync_shotgun_cced_changes_to_jira`
(lines 643-690): the removed pass runs before the added pass; the result is
the list of watcher calls issued. -/
def sync_shotgun_cced_changes_to_jira (b : Bridge) (jira_issue : JiraIssue)
    (added removed : List PyVal) : Except PyErr (List Call) := do
  let removedOps ← watcherPass b jira_issue Call.removeWatcher removed
  let addedOps ← watcherPass b jira_issue Call.addWatcher added
  pure (removedOps ++ addedOps)

/-- Specification-side watcher call for one changed entry: a call is issued
exactly when the entry is a human user that consolidates to a truthy record
whose email matches a Jira user. -/
def watcherOpOf (b : Bridge) (issueKey : String) (mk : String → String → Call)
    (user : PyVal) : Option Call :=
  match user with
  | .dict ues =>
    match ues.lookup "type" with
    | some t =>
      if t == PyVal.str "HumanUser" then
        match b.consolidate_entity user [] with
        | .dict ses =>
          if (PyVal.dict ses).truthy then
            match ses.lookup "email" with
            | some em => (b.find_jira_user em).map fun ju => mk issueKey ju.name
            | Option.none => Option.none
          else Option.none
        | _ => Option.none
      else Option.none
    | Option.none => Option.none
  | _ => Option.none

/-- Shape condition for one changed entry: a dict with a `type` key whose
consolidation, when it is a truthy value for a human user, is a dict carrying
an `email` key. -/
def watcherEntryWellFormed (b : Bridge) (u : PyVal) : Bool :=
  match u with
  | .dict ues =>
    match ues.lookup "type" with
    | some t =>
      if t == PyVal.str "HumanUser" then
        (if (b.consolidate_entity u []).truthy then
          match b.consolidate_entity u [] with
          | .dict ses => (ses.lookup "email").isSome
          | _ => false
        else true)
      else true
    | Option.none => false
  | _ => false

/-- One watcher pass issues exactly the calls of `watcherOpOf`, in input
order. -/
theorem watcherPass_eq (b : Bridge) (jira_issue : JiraIssue)
    (mk : String → String → Call) (users : List PyVal)
    (hwf : ∀ u ∈ users, watcherEntryWellFormed b u = true) :
    watcherPass b jira_issue mk users =
      .ok (users.filterMap (watcherOpOf b jira_issue.key mk)) := by
  induction users with
  | nil => rfl
  | cons user rest ih =>
    have hu := hwf user (List.mem_cons_self user rest)
    have hrest := fun a ha => hwf a (List.mem_cons_of_mem user ha)
    cases user with
    | dict ues =>
      simp only [watcherEntryWellFormed] at hu
      cases hty : ues.lookup "type" with
      | none => rw [hty] at hu; cases hu
      | some t =>
        rw [hty] at hu
        dsimp only at hu
        have hget : (PyVal.dict ues).getItem "type" = .ok t := by
          simp [PyVal.getItem, hty]
        by_cases hh : (t == PyVal.str "HumanUser") = true
        · rw [if_pos hh] at hu
          cases hcons : b.consolidate_entity (.dict ues) [] with
          | dict ses =>
            rw [hcons] at hu
            by_cases htr : (PyVal.dict ses).truthy = true
            · rw [if_pos htr] at hu
              obtain ⟨em, hem⟩ := Option.isSome_iff_exists.mp hu
              simp only [watcherPass, hget, exceptBind_ok, hh, if_true, hcons,
                htr, List.filterMap_cons, watcherOpOf, hty, hem,
                PyVal.getItem, exceptPure]
              cases hfind : b.find_jira_user em with
              | none =>
                simp only [hfind, Option.map_none]
                exact ih hrest
              | some ju =>
                simp only [hfind, Option.map_some, ih hrest, exceptBind_ok]
                rfl
            · have htr' : (PyVal.dict ses).truthy = false := by simpa using htr
              simp only [watcherPass, hget, exceptBind_ok, hh, if_true, hcons,
                htr', Bool.false_eq_true, if_false, List.filterMap_cons,
                watcherOpOf, hty]
              rw [ih hrest]
            | none =>
              simp only [watcherPass, hget, exceptBind_ok, hh, if_true, hcons,
                PyVal.truthy, Bool.false_eq_true, if_false, List.filterMap_cons,
                watcherOpOf, hty]
              rw [ih hrest]
          | bool x =>
            simp only [watcherPass, hget, exceptBind_ok, hh, if_true, hcons,
              List.filterMap_cons, watcherOpOf, hty]
            by_cases hx : (PyVal.bool x).truthy = true
            · rw [hcons] at hu
              rw [if_pos hx] at hu
              cases hu
            · have hx' : (PyVal.bool x).truthy = false := by simpa using hx
              simp only [hx', Bool.false_eq_true, if_false]
              rw [ih hrest]
          | int x =>
            simp only [watcherPass, hget, exceptBind_ok, hh, if_true, hcons,
              List.filterMap_cons, watcherOpOf, hty]
            by_cases hx : (PyVal.int x).truthy = true
            · rw [hcons] at hu
              rw [if_pos hx] at hu
              cases hu
            · have hx' : (PyVal.int x).truthy = false := by simpa using hx
              simp only [hx', Bool.false_eq_true, if_false]
              rw [ih hrest]
          | str x =>
            simp only [watcherPass, hget, exceptBind_ok, hh, if_true, hcons,
              List.filterMap_cons, watcherOpOf, hty]
            by_cases hx : (PyVal.str x).truthy = true
            · rw [hcons] at hu
              rw [if_pos hx] at hu
              cases hu
            · have hx' : (PyVal.str x).truthy = false := by simpa using hx
              simp only [hx', Bool.false_eq_true, if_false]
              rw [ih hrest]
          | list x =>
            simp only [watcherPass, hget, exceptBind_ok, hh, if_true, hcons,
              List.filterMap_cons, watcherOpOf, hty]
            by_cases hx : (PyVal.list x).truthy = true
            · rw [hcons] at hu
              rw [if_pos hx] at hu
              cases hu
            · have hx' : (PyVal.list x).truthy = false := by simpa using hx
              simp only [hx', Bool.false_eq_true, if_false]
              rw [ih hrest]
          | resource x =>
            rw [hcons] at hu
            rw [if_pos (by simp [PyVal.truthy])] at hu
            cases hu
        · have hh' : (t == PyVal.str "HumanUser") = false := by simpa using hh
          simp only [watcherPass, hget, exceptBind_ok, hh', Bool.false_eq_true,
            if_false, List.filterMap_cons, watcherOpOf, hty]
          rw [ih hrest]
    | none => simp [watcherEntryWellFormed] at hu
    | bool x => simp [watcherEntryWellFormed] at hu
    | int x => simp [watcherEntryWellFormed] at hu
    | str x => simp [watcherEntryWellFormed] at hu
    | list x => simp [watcherEntryWellFormed] at hu
    | resource x => simp [watcherEntryWellFormed] at hu

/-- C10: `sync_shotgun_cced_changes_to_jira` issues watcher calls exactly for
the entries that are human users successfully resolved to a Jira user by
email — non-human entries, entries that fail consolidation, and humans whose
email matches no Jira user are silently skipped — removals first, then
additions. -/
theorem sync_shotgun_cced_changes_to_jira_calls (b : Bridge)
    (jira_issue : JiraIssue) (added removed : List PyVal)
    (hwfA : ∀ u ∈ added, watcherEntryWellFormed b u = true)
    (hwfR : ∀ u ∈ removed, watcherEntryWellFormed b u = true) :
    sync_shotgun_cced_changes_to_jira b jira_issue added removed =
      .ok (removed.filterMap (watcherOpOf b jira_issue.key Call.removeWatcher) ++
           added.filterMap (watcherOpOf b jira_issue.key Call.addWatcher)) := by
  simp only [sync_shotgun_cced_changes_to_jira,
    watcherPass_eq b jira_issue Call.removeWatcher removed hwfR,
    watcherPass_eq b jira_issue Call.addWatcher added hwfA,
    exceptBind_ok, exceptPure]

/-- C10 witness: the watcher-call characterization applied with a group, an
unresolvable human and a resolvable human. -/
theorem sync_shotgun_cced_changes_to_jira_calls_witness :
    sync_shotgun_cced_changes_to_jira
      { testBridge with
        find_jira_user := fun em =>
          if em == PyVal.str "ford@studio.com" then some ⟨"ford.prefect", "ford@studio.com"⟩
          else Option.none }
      ⟨"FOO-1", []⟩
      [.dict [("type", .str "Group"), ("id", .int 4)],
       .dict [("type", .str "HumanUser"), ("id", .int 5),
              ("email", .str "ford@studio.com")]]
      [.dict [("type", .str "HumanUser"), ("id", .int 6),
              ("email", .str "nobody@studio.com")]] =
      .ok ([.dict [("type", .str "HumanUser"), ("id", .int 6),
              ("email", .str "nobody@studio.com")]].filterMap
            (watcherOpOf
              { testBridge with
                find_jira_user := fun em =>
                  if em == PyVal.str "ford@studio.com" then
                    some ⟨"ford.prefect", "ford@studio.com"⟩
                  else Option.none }
              "FOO-1" Call.removeWatcher) ++
           [.dict [("type", .str "Group"), ("id", .int 4)],
            .dict [("type", .str "HumanUser"), ("id", .int 5),
              ("email", .str "ford@studio.com")]].filterMap
            (watcherOpOf
              { testBridge with
                find_jira_user := fun em =>
                  if em == PyVal.str "ford@studio.com" then
                    some ⟨"ford.prefect", "ford@studio.com"⟩
                  else Option.none }
              "FOO-1" Call.addWatcher)) :=
  sync_shotgun_cced_changes_to_jira_calls
    { testBridge with
      find_jira_user := fun em =>
        if em == PyVal.str "ford@studio.com" then some ⟨"ford.prefect", "ford@studio.com"⟩
        else Option.none }
    ⟨"FOO-1", []⟩
    [.dict [("type", .str "Group"), ("id", .int 4)],
     .dict [("type", .str "HumanUser"), ("id", .int 5),
            ("email", .str "ford@studio.com")]]
    [.dict [("type", .str "HumanUser"), ("id", .int 6),
            ("email", .str "nobody@studio.com")]]
    (by decide) (by decide)

/-- Python `s.isdigit()`: non-empty all-digit string; `AttributeError` on
non-strings (e.g. a missing field that came back `None`). -/
def pyIsdigit : PyVal → Except PyErr Bool
  | .str s => .ok (!s.data.isEmpty && s.data.all Char.isDigit)
  | _ => .error (.attributeError "isdigit")

/-- Embedding of the multi-entity removal of
`get_shotgun_assignment_from_jira_issue_change` (lines 959-971): delete the
first current entry whose type and id match the resolved user (the loop
breaks after one deletion). -/
def assigneeRemoveLoop (sg_user : PyVal) : List PyVal → Except PyErr (List PyVal)
  | [] => .ok []
  | e :: rest => do
    let et ← e.getItem "type"
    let st ← sg_user.getItem "type"
    if et == st then do
      let ei ← e.getItem "id"
      let si ← sg_user.getItem "id"
      if ei == si then pure rest
      else do
        let tail ← assigneeRemoveLoop sg_user rest
        pure (e :: tail)
    else do
      let tail ← assigneeRemoveLoop sg_user rest
      pure (e :: tail)

/-- Embedding of the multi-entity presence scan (lines 989-991). -/
def assigneeContains (sg_user : PyVal) : List PyVal → Except PyErr Bool
  | [] => .ok false
  | e :: rest => do
    let et ← e.getItem "type"
    let st ← sg_user.getItem "type"
    if et == st then do
      let ei ← e.getItem "id"
      let si ← sg_user.getItem "id"
      if ei == si then pure true
      else assigneeContains sg_user rest
    else assigneeContains sg_user rest

/-- Python string extraction for values handed to collaborators that require
a string (a Jira user key). -/
def pyStrKey : PyVal → Except PyErr String
  | .str s => .ok s
  | _ => .error (.typeError "expected a string")

/-- Embedding of
`EntityIssueHandler.get_shotgun_assignment_from_jira_issue_change`
(lines 882-1043). -/
def get_shotgun_assignment_from_jira_issue_change (b : Bridge)
    (shotgun_entity : PyVal) (shotgun_field : String)
    (shotgun_field_schema jira_issue change : PyVal) : Except PyErr PyVal := do
  let dtd ← shotgun_field_schema.getItem "data_type"
  let data_type ← dtd.getItem "value"
  if !(data_type == PyVal.str "multi_entity" || data_type == PyVal.str "entity") then
    .error (.valueError "field type is not valid for assignments")
  else do
    let props ← shotgun_field_schema.getItem "properties"
    let vt ← props.getItem "valid_types"
    let sg_valid_types ← vt.getItem "value"
    let vts ← pyIterList sg_valid_types
    if !(vts.contains (PyVal.str "HumanUser")) then
      .error (.valueError "assignment field must accept HumanUser")
    else do
      let current0 ← shotgun_entity.dictGet shotgun_field
      let from_assignee ← change.getItem "from"
      let to_assignee ← change.getItem "to"
      if data_type == PyVal.str "multi_entity" then do
        let current1 ←
          if from_assignee.truthy then do
            let key ← pyStrKey from_assignee
            let jira_user := b.jira_user_by_key key
            let sg_user := b.find_one_humanuser_by_email (.str jira_user.emailAddress)
            if !sg_user.truthy then pure current0
            else do
              let cur ← pyIterList current0
              let cur2 ← assigneeRemoveLoop sg_user cur
              pure (PyVal.list cur2)
          else pure current0
        if to_assignee.truthy then do
          let fields ← jira_issue.getItem "fields"
          let jira_user ← fields.getItem "assignee"
          let em ← jira_user.getItem "emailAddress"
          let sg_user := b.find_one_humanuser_by_email em
          if !sg_user.truthy then
            .error (.invalidJiraValue shotgun_field jira_user
              "Unable to retrieve a Shotgun user with the assignee email address")
          else do
            let cur ← pyIterList current1
            let present ← assigneeContains sg_user cur
            if present then pure current1
            else pure (PyVal.list (cur ++ [sg_user]))
        else pure current1
      else do
        let current1 ←
          if from_assignee.truthy then do
            let key ← pyStrKey from_assignee
            let jira_user := b.jira_user_by_key key
            let sg_user := b.find_one_humanuser_by_email (.str jira_user.emailAddress)
            if !sg_user.truthy then pure current0
            else do
              let ct ← current0.getItem "type"
              let st ← sg_user.getItem "type"
              if ct == st then do
                let ci ← current0.getItem "id"
                let si ← sg_user.getItem "id"
                if ci == si then pure PyVal.none else pure current0
              else pure current0
          else pure current0
        if to_assignee.truthy && !current1.truthy then do
          let fields ← jira_issue.getItem "fields"
          let jira_user ← fields.getItem "assignee"
          let em ← jira_user.getItem "emailAddress"
          let sg_user := b.find_one_humanuser_by_email em
          if !sg_user.truthy then
            .error (.invalidJiraValue shotgun_field jira_user
              "Unable to retrieve a Shotgun user with the assignee email address")
          else pure sg_user
        else pure current1

/-- Embedding of `EntityIssueHandler.get_shotgun_entity_field_sync_value`
(lines 794-869). -/
def get_shotgun_entity_field_sync_value (b : Bridge) (shotgun_entity : PyVal)
    (jira_issue : PyVal) (jira_field_id : String) (change : PyVal) :
    Except PyErr (Option String × PyVal) := do
  match b.get_shotgun_entity_field_for_issue_field jira_field_id with
  | Option.none => pure (Option.none, PyVal.none)
  | some shotgun_field =>
    if shotgun_field = "" then pure (Option.none, PyVal.none)
    else do
      let stype ← shotgun_entity.getItem "type"
      let stypeStr ← pyStrKey stype
      let shotgun_field_schema := b.get_field_schema stypeStr shotgun_field
      if !shotgun_field_schema.truthy then
        .error (.valueError ("Unknown Shotgun " ++ stypeStr ++ " " ++
          shotgun_field ++ " field"))
      else do
        let ed ← shotgun_field_schema.getItem "editable"
        let ev ← ed.getItem "value"
        if !ev.truthy then pure (Option.none, PyVal.none)
        else
          if jira_field_id = "assignee" then do
            let shotgun_value ← get_shotgun_assignment_from_jira_issue_change b
              shotgun_entity shotgun_field shotgun_field_schema jira_issue change
            pure (some shotgun_field, shotgun_value)
          else do
            let fields ← jira_issue.getItem "fields"
            let jv ← fields.getItem jira_field_id
            let shotgun_value ← get_shotgun_value_from_jira_issue_change b
              shotgun_entity shotgun_field shotgun_field_schema change jv
            pure (some shotgun_field, shotgun_value)

/-- Embedding of the field-id resolution of the event loop (lines 751-753):
`change.get("fieldId") or self.jira.get_jira_issue_field_id(change["field"])`. -/
def compute_field_id (b : Bridge) (change : PyVal) : Except PyErr String := do
  let fid ← change.dictGet "fieldId"
  if fid.truthy then pyStrKey fid
  else do
    let fname ← change.getItem "field"
    let s ← pyStrKey fname
    pyStrKey (b.get_jira_issue_field_id s)

/-- Whether an error is the recoverable invalid-value kind caught by the
per-changelog-entry loop. -/
def PyErr.isInvalidJira : PyErr → Bool
  | .invalidJiraValue _ _ _ => true
  | _ => false

/-- Embedding of the per-changelog-entry loop of
`EntityIssueHandler.process_jira_event` (lines 747-775): the `try` block
around the field sync call catches exactly `InvalidJiraValue` (the
`isInvalidJira` test) and continues; every other exception — including those
from the field-id resolution, which is outside the `try` — propagates.
An accumulated entry needs a truthy returned field name. -/
def process_changes (b : Bridge) (sg_entity jira_issue : PyVal) :
    List PyVal → List (String × PyVal) → Except PyErr (List (String × PyVal))
  | [], acc => .ok acc
  | change :: rest, acc =>
    match compute_field_id b change with
    | .error e => .error e
    | .ok field_id =>
      match get_shotgun_entity_field_sync_value b sg_entity jira_issue field_id change with
      | .error e =>
        if e.isInvalidJira then process_changes b sg_entity jira_issue rest acc
        else .error e
      | .ok (sf, sv) =>
        match sf with
        | some f =>
          if f = "" then process_changes b sg_entity jira_issue rest acc
          else process_changes b sg_entity jira_issue rest (dictSet acc f sv)
        | Option.none => process_changes b sg_entity jira_issue rest acc

/-- Embedding of the prelude of `EntityIssueHandler.process_jira_event`
(lines 711-745): payload access, Shotgun id validation, entity consolidation
(`none` result means the handler returns `False` without error), and the
accesses made by the `Syncing ...` log line. -/
def processPrelude (b : Bridge) (event : PyVal) :
    Except PyErr (Option (PyVal × PyVal × PyVal × PyVal × List PyVal)) := do
  let jira_issue ← event.getItem "issue"
  let fields ← jira_issue.getItem "fields"
  let issue_type ← fields.getItem "issuetype"
  let shotgun_id ← fields.dictGet b.jira_shotgun_id_field
  let isdig ← pyIsdigit shotgun_id
  if !isdig then
    .error (.valueError "Invalid Shotgun id, it should be an integer")
  else do
    let shotgun_type ← fields.dictGet b.jira_shotgun_type_field
    let sgIdInt ← pyInt shotgun_id
    let sg_entity := b.consolidate_entity
      (.dict [("type", shotgun_type), ("id", .int sgIdInt)])
      b.supported_shotgun_fields_for_jira_event
    if !sg_entity.truthy then pure Option.none
    else do
      let _ ← issue_type.getItem "name"
      let setype ← sg_entity.getItem "type"
      let seid ← sg_entity.getItem "id"
      match seid with
      | .int _ => do
        let changelog ← event.getItem "changelog"
        let items ← changelog.getItem "items"
        let changes ← pyIterList items
        pure (some (sg_entity, jira_issue, setype, seid, changes))
      | _ => .error (.typeError "%d format: a number is required")

/-- Embedding of `EntityIssueHandler.process_jira_event` (lines 703-792):
the second component records the remote entity-update calls issued. -/
def process_jira_event (b : Bridge) (resource_type resource_id : String)
    (event : PyVal) : (Except PyErr Bool) × List Call :=
  match processPrelude b event with
  | .error e => (.error e, [])
  | .ok Option.none => (.ok false, [])
  | .ok (some (sg_entity, jira_issue, setype, seid, changes)) =>
    match process_changes b sg_entity jira_issue changes [] with
    | .error e => (.error e, [])
    | .ok shotgun_data =>
      if shotgun_data.isEmpty then (.ok false, [])
      else (.ok true, [.sgUpdate setype seid shotgun_data])

/-- A changelog entry on which the loop keeps going: field-id resolution
succeeds and the field sync either returns a result or fails with the caught
`InvalidJiraValue` kind. -/
def changeStepContinues (b : Bridge) (sg_entity jira_issue : PyVal)
    (c : PyVal) : Prop :=
  ∃ fid, compute_field_id b c = .ok fid ∧
    ((∃ r, get_shotgun_entity_field_sync_value b sg_entity jira_issue fid c = .ok r) ∨
     (∃ f v m, get_shotgun_entity_field_sync_value b sg_entity jira_issue fid c =
        .error (.invalidJiraValue f v m)))

/-- C8: the per-changelog-entry loop of `process_jira_event` catches exactly
`InvalidJiraValue`.  First part: a changelog entry whose field sync fails
with `InvalidJiraValue` is skipped — the loop result over any entries is the
same as without that entry, so the remaining entries are still processed and
accumulated.  Second part: an entry whose field-id resolution or field sync
fails with any other error aborts the loop with that error, provided the
entries before it did not abort. -/
theorem process_changes_catches_exactly_invalid (b : Bridge)
    (sg_entity jira_issue : PyVal) :
    (∀ (pre post : List PyVal) (ch : PyVal) (acc : List (String × PyVal))
        (fid f : String) (v : PyVal) (m : String),
      compute_field_id b ch = .ok fid →
      get_shotgun_entity_field_sync_value b sg_entity jira_issue fid ch =
        .error (.invalidJiraValue f v m) →
      process_changes b sg_entity jira_issue (pre ++ ch :: post) acc =
        process_changes b sg_entity jira_issue (pre ++ post) acc) ∧
    (∀ (pre post : List PyVal) (ch : PyVal) (acc : List (String × PyVal))
        (e : PyErr),
      (∀ c ∈ pre, changeStepContinues b sg_entity jira_issue c) →
      e.isInvalidJira = false →
      (compute_field_id b ch = .error e ∨
        ∃ fid, compute_field_id b ch = .ok fid ∧
          get_shotgun_entity_field_sync_value b sg_entity jira_issue fid ch =
            .error e) →
      process_changes b sg_entity jira_issue (pre ++ ch :: post) acc = .error e) := by
  constructor
  · intro pre post ch acc fid f v m hfid hinv
    induction pre generalizing acc with
    | nil =>
      simp only [List.nil_append, process_changes, hfid, hinv]
      rfl
    | cons c pre' ih =>
      simp only [List.cons_append, process_changes]
      cases hc : compute_field_id b c with
      | error e => rfl
      | ok fid' =>
        show (match get_shotgun_entity_field_sync_value b sg_entity jira_issue fid' c with
          | Except.error e =>
            if e.isInvalidJira then process_changes b sg_entity jira_issue (pre' ++ ch :: post) acc
            else Except.error e
          | Except.ok (sf, sv) =>
            match sf with
            | some f =>
              if f = "" then process_changes b sg_entity jira_issue (pre' ++ ch :: post) acc
              else process_changes b sg_entity jira_issue (pre' ++ ch :: post) (dictSet acc f sv)
            | Option.none => process_changes b sg_entity jira_issue (pre' ++ ch :: post) acc) =
          (match get_shotgun_entity_field_sync_value b sg_entity jira_issue fid' c with
          | Except.error e =>
            if e.isInvalidJira then process_changes b sg_entity jira_issue (pre' ++ post) acc
            else Except.error e
          | Except.ok (sf, sv) =>
            match sf with
            | some f =>
              if f = "" then process_changes b sg_entity jira_issue (pre' ++ post) acc
              else process_changes b sg_entity jira_issue (pre' ++ post) (dictSet acc f sv)
            | Option.none => process_changes b sg_entity jira_issue (pre' ++ post) acc)
        cases hs : get_shotgun_entity_field_sync_value b sg_entity jira_issue fid' c with
        | error e =>
          show (if e.isInvalidJira then process_changes b sg_entity jira_issue (pre' ++ ch :: post) acc
              else Except.error e) =
            (if e.isInvalidJira then process_changes b sg_entity jira_issue (pre' ++ post) acc
              else Except.error e)
          by_cases hei : e.isInvalidJira = true
          · rw [if_pos hei, if_pos hei]
            exact ih acc
          · rw [if_neg hei, if_neg hei]
        | ok r =>
          obtain ⟨sf, sv⟩ := r
          cases sf with
          | none => exact ih acc
          | some fld =>
            show (if fld = "" then process_changes b sg_entity jira_issue (pre' ++ ch :: post) acc
                else process_changes b sg_entity jira_issue (pre' ++ ch :: post) (dictSet acc fld sv)) =
              (if fld = "" then process_changes b sg_entity jira_issue (pre' ++ post) acc
                else process_changes b sg_entity jira_issue (pre' ++ post) (dictSet acc fld sv))
            by_cases hf : fld = ""
            · rw [if_pos hf, if_pos hf]
              exact ih acc
            · rw [if_neg hf, if_neg hf]
              exact ih (dictSet acc fld sv)
  · intro pre post ch acc e hcont hnotinv hhard
    induction pre generalizing acc with
    | nil =>
      rcases hhard with hc | ⟨fid, hfid, hs⟩
      · simp only [List.nil_append, process_changes, hc]
      · simp only [List.nil_append, process_changes, hfid, hs, hnotinv,
          Bool.false_eq_true, if_false]
    | cons c pre' ih =>
      have hcc := hcont c (List.mem_cons_self c pre')
      have hcont' := fun a ha => hcont a (List.mem_cons_of_mem c ha)
      obtain ⟨fid', hfid', hstep⟩ := hcc
      simp only [List.cons_append, process_changes, hfid']
      show (match get_shotgun_entity_field_sync_value b sg_entity jira_issue fid' c with
        | Except.error e2 =>
          if e2.isInvalidJira then process_changes b sg_entity jira_issue (pre' ++ ch :: post) acc
          else Except.error e2
        | Except.ok (sf, sv) =>
          match sf with
          | some f =>
            if f = "" then process_changes b sg_entity jira_issue (pre' ++ ch :: post) acc
            else process_changes b sg_entity jira_issue (pre' ++ ch :: post) (dictSet acc f sv)
          | Option.none => process_changes b sg_entity jira_issue (pre' ++ ch :: post) acc) =
        Except.error e
      rcases hstep with ⟨r, hr⟩ | ⟨f, v, m, hr⟩
      · obtain ⟨sf, sv⟩ := r
        rw [hr]
        cases sf with
        | none => exact ih acc hcont'
        | some fld =>
          show (if fld = "" then process_changes b sg_entity jira_issue (pre' ++ ch :: post) acc
              else process_changes b sg_entity jira_issue (pre' ++ ch :: post) (dictSet acc fld sv)) =
            Except.error e
          by_cases hf : fld = ""
          · rw [if_pos hf]
            exact ih acc hcont'
          · rw [if_neg hf]
            exact ih (dictSet acc fld sv) hcont'
      · rw [hr]
        show (if (PyErr.invalidJiraValue f v m).isInvalidJira = true then
            process_changes b sg_entity jira_issue (pre' ++ ch :: post) acc
          else Except.error (PyErr.invalidJiraValue f v m)) = Except.error e
        rw [if_pos (show (PyErr.invalidJiraValue f v m).isInvalidJira = true from rfl)]
        exact ih acc hcont'

/-- A bridge for the loop witness: `status` maps to a `status_list` Shotgun
field, `summary` maps to a Shotgun field with no known schema. -/
def loopTestBridge : Bridge :=
  { testBridge with
    get_shotgun_entity_field_for_issue_field := fun fid =>
      if fid = "status" then some "sg_status"
      else if fid = "summary" then some "sg_summary"
      else Option.none,
    get_field_schema := fun _ f =>
      if f = "sg_status" then
        .dict [("data_type", .dict [("value", .str "status_list")]),
               ("editable", .dict [("value", .bool true)])]
      else .none,
    sg_jira_statuses_mapping := [("ip", "In Progress")] }

/-- The raw Jira issue payload used by the loop witness. -/
def loopTestIssue : PyVal :=
  .dict [("fields", .dict [("status", .dict [("name", .str "Backlog")]),
                           ("summary", .str "x")])]

/-- A changelog entry whose status value matches no configured status. -/
def loopTestInvalidChange : PyVal :=
  .dict [("fieldId", .str "status"), ("toString", .str "Backlog")]

/-- A changelog entry whose target Shotgun field has no schema. -/
def loopTestHardChange : PyVal :=
  .dict [("fieldId", .str "summary"), ("toString", .str "New")]

/-- C8 witness: both parts of the loop theorem applied at concrete changelog
entries — an unmatchable status is skipped, an unknown-schema field aborts. -/
theorem process_changes_catches_exactly_invalid_witness :
    (process_changes loopTestBridge (.dict [("type", .str "Task"), ("id", .int 1)])
        loopTestIssue [loopTestInvalidChange] [] =
      process_changes loopTestBridge (.dict [("type", .str "Task"), ("id", .int 1)])
        loopTestIssue [] []) ∧
    (process_changes loopTestBridge (.dict [("type", .str "Task"), ("id", .int 1)])
        loopTestIssue [loopTestHardChange] [] =
      .error (.valueError "Unknown Shotgun Task sg_summary field")) :=
  ⟨(process_changes_catches_exactly_invalid loopTestBridge
      (.dict [("type", .str "Task"), ("id", .int 1)]) loopTestIssue).1
    [] [] loopTestInvalidChange [] "status" "sg_status" (.str "Backlog")
    "Unable to find a matching Shotgun status" (by decide) (by decide),
   (process_changes_catches_exactly_invalid loopTestBridge
      (.dict [("type", .str "Task"), ("id", .int 1)]) loopTestIssue).2
    [] [] loopTestHardChange []
    (.valueError "Unknown Shotgun Task sg_summary field")
    (by simp) (by decide)
    (Or.inr ⟨"summary", by decide, by decide⟩)⟩

end SgJira
